import Mathlib

/-!
# Gym-Management: the membership lifecycle

A shallow embedding of `backend/src/models/memberModel.js` and
`backend/src/controllers/memberController.js`.

Conventions of the embedding.

* A `Date` is its number of milliseconds since the epoch, an `Int`.  Every
  clock read (`new Date()`, `Date.now()`, the schema defaults and the
  `timestamps` option) made while one request is served returns the same
  instant, the argument `now` of the operation.
* `d.setDate(d.getDate() + n)` moves `d` by `n` calendar days of the server's
  time zone; the embedding takes a zone without clock changes, so that this is
  `n * 86400000` milliseconds.
* The collection is a `List Member` in insertion order.  `findOne`,
  `findById`, `findByIdAndUpdate` and `findByIdAndDelete` act on the first
  document that matches.
* A controller is a function from its inputs and the collection to the
  response it sends and the collection it leaves behind.  The result of
  `validationResult(req)` is an input: the controller only reads it.
* Requests are served one at a time, except in `addMemberInterleaved` and
  `updateMemberInterleaved`, where another request may write between the
  conflict query and the write.
* The `length` of a string is its number of UTF-16 code units (`jsLength`).
* A number that `parseInt` returns is a double: an integer or an infinity
  (`JsNum`), rounded by `toNumber`.
* What `getMembers` leaves to the storage is the argument `db : Storage`: the
  letters that the option `i` identifies, the regular-expression engine on
  patterns with syntax other than the dot, the order of documents with equal
  `createdAt` (one function `sort`, bound by the contract
  `SortsByCreatedAtDesc`), and the answer to a `find` whose `skip` or `limit`
  is negative, infinite or not below `2 ^ 53`.
* Request bodies carry the paths declared in `memberSchema`, each optional and
  of the declared type.  Keys outside the schema are dropped by Mongoose
  (strict mode); bodies that carry `_id`, `createdAt` or `updatedAt` are
  outside the embedding, and so are the `_id`s of payment sub-documents and
  the version key `__v`.
-/

namespace GymManagement

/-! ## Dates -/

/-- Milliseconds since the epoch. -/
abbrev Timestamp := Int

/-- The constant `1000 * 60 * 60 * 24` of the `daysRemaining` virtual. -/
def msPerDay : Int := 1000 * 60 * 60 * 24

/-- The effect of `d.setDate(d.getDate() + n)` on the instant `d`. -/
def addDays (d : Timestamp) (n : Nat) : Timestamp := d + (n : Int) * msPerDay

/-- The value of `Math.ceil(a / b)` for integers `a` and `b` with `0 < b`. -/
def ceilDiv (a b : Int) : Int := -((-a) / b)

/-! ## Strings and the schema setters -/

/-- White space and line terminators removed by `String.prototype.trim`. -/
def jsWhitespace (c : Char) : Bool :=
  c.toNat ∈ [0x9, 0xA, 0xB, 0xC, 0xD, 0x20, 0xA0, 0x1680, 0x2000, 0x2001, 0x2002, 0x2003,
    0x2004, 0x2005, 0x2006, 0x2007, 0x2008, 0x2009, 0x200A, 0x2028, 0x2029, 0x202F, 0x205F,
    0x3000, 0xFEFF]

/-- Removal of the leading and the trailing white space of a character list. -/
def trimL (l : List Char) : List Char :=
  ((l.dropWhile jsWhitespace).reverse.dropWhile jsWhitespace).reverse

/-- The setter of `trim: true`. -/
def trim (s : String) : String := ⟨trimL s.data⟩

/-- Lower case of a character: the ASCII letters, and the Kelvin sign, whose
lower case is the letter k; other characters are kept. -/
def lowerChar (c : Char) : Char := if c.toNat = 0x212A then 'k' else c.toLower

/-- The setter of `lowercase: true`; it is `String.prototype.toLowerCase` on
every string whose lower case is ASCII. -/
def lowercase (s : String) : String := ⟨s.data.map lowerChar⟩

/-- The setters of the `email` path: `lowercase: true, trim: true`. -/
def normEmail (s : String) : String := trim (lowercase s)

/-- JavaScript truthiness of an optional string: present and not empty. -/
def truthy (o : Option String) : Bool :=
  match o with
  | some s => s != ""
  | none => false

/-! ## The schema -/

/-- The nested path `emergencyContact`. -/
structure EmergencyContact where
  name : Option String := none
  phone : Option String := none
  relation : Option String := none
deriving DecidableEq, Repr

/-- The nested path `medicalInfo`. -/
structure MedicalInfo where
  bloodGroup : Option String := none
  allergies : List String := []
  medicalConditions : List String := []
deriving DecidableEq, Repr

/-- An element of `paymentHistory`. -/
structure Payment where
  amount : Option Int
  date : Timestamp
  paymentMethod : Option String
  transactionId : Option String
deriving DecidableEq, Repr

/-- A stored document of the `Member` model. -/
structure Member where
  _id : Nat
  fullName : String
  email : String
  phone : String
  address : String
  packageType : String
  membershipStatus : String
  joinDate : Timestamp
  expiryDate : Timestamp
  emergencyContact : EmergencyContact
  medicalInfo : MedicalInfo
  paymentHistory : List Payment
  createdBy : Option Nat
  createdAt : Timestamp
  updatedAt : Timestamp
deriving DecidableEq, Repr

/-- The collection, in insertion order. -/
abbrev Store := List Member

/-- A payment entry as a request body gives it: `date` may be missing. -/
structure PaymentInput where
  amount : Option Int := none
  date : Option Timestamp := none
  paymentMethod : Option String := none
  transactionId : Option String := none
deriving DecidableEq, Repr

/-- The body of a create or update request, restricted to the schema paths. -/
structure Body where
  fullName : Option String := none
  email : Option String := none
  phone : Option String := none
  address : Option String := none
  packageType : Option String := none
  membershipStatus : Option String := none
  joinDate : Option Timestamp := none
  expiryDate : Option Timestamp := none
  emergencyContact : Option EmergencyContact := none
  medicalInfo : Option MedicalInfo := none
  paymentHistory : Option (List PaymentInput) := none
  createdBy : Option Nat := none
deriving DecidableEq, Repr

/-- Casting of a payment entry: `date` has the default `Date.now`. -/
def castPayment (now : Timestamp) (p : PaymentInput) : Payment :=
  { amount := p.amount, date := p.date.getD now,
    paymentMethod := p.paymentMethod, transactionId := p.transactionId }

/-- The enum of `packageType`. -/
def packageTypes : List String := ["basic", "premium", "elite", "trial"]

/-- The enum of `membershipStatus`. -/
def membershipStatuses : List String := ["active", "inactive", "suspended", "expired"]

/-- The class `\w` of a regular expression without the unicode flag. -/
def isWordChar (c : Char) : Bool := c.isAlphanum || c == '_'

/-- The class `[.-]`. -/
def isSep (c : Char) : Bool := c == '.' || c == '-'

/-- No two neighbouring characters are both of the class `[.-]`. -/
def noAdjacentSeps : List Char → Bool
  | a :: b :: t => !(isSep a && isSep b) && noAdjacentSeps (b :: t)
  | _ => true

/-- The whole of `l` matches `\w+([.-]?\w+)*`. -/
def matchesWords (l : List Char) : Bool :=
  l.all (fun c => isWordChar c || isSep c) && l.head?.any isWordChar &&
    l.getLast?.any isWordChar && noAdjacentSeps l

/-- The whole of `d` matches `\w+([.-]?\w+)*\.\w{n}`. -/
def domainEndsWith (n : Nat) (d : List Char) : Bool :=
  match d.drop (d.length - (n + 1)) with
  | '.' :: w => w.length == n && w.all isWordChar && matchesWords (d.take (d.length - (n + 1)))
  | _ => false

/-- The `match` expression of the `email` path,
`/^\w+([.-]?\w+)*@\w+([.-]?\w+)*(\.\w{2,3})+$/`.  A string matches when it
has one `@`, its local part matches `\w+([.-]?\w+)*`, and its domain is such
a word sequence followed by a dot and a last label of two or three word
characters (earlier `\.\w{2,3}` groups are word sequences themselves). -/
def emailShape (s : String) : Bool :=
  match s.data.span (fun c => c != '@') with
  | (loc, '@' :: dom) => matchesWords loc && (domainEndsWith 2 dom || domainEndsWith 3 dom)
  | _ => false

/-- The `length` of a JavaScript string: its number of UTF-16 code units, two
for a character outside the basic plane. -/
def jsLength (s : String) : Nat :=
  (s.data.map fun c => if c.toNat < 0x10000 then 1 else 2).sum

/-- Validators of `fullName`: required, minlength 2, maxlength 100, the two
lengths compared with `v.length`. -/
def validFullName (s : String) : Bool :=
  s != "" && decide (2 ≤ jsLength s) && decide (jsLength s ≤ 100)

/-- Validators of `email`: required, match. -/
def validEmail (s : String) : Bool := s != "" && emailShape s

/-- Validators of `phone`: required, match `/^[0-9]{10}$/`. -/
def validPhone (s : String) : Bool := s != "" && jsLength s == 10 && s.data.all Char.isDigit

/-- Validators of `address`: required, maxlength 200, compared with `v.length`. -/
def validAddress (s : String) : Bool := s != "" && decide (jsLength s ≤ 200)

/-- Validators of `packageType`: required, enum. -/
def validPackageType (s : String) : Bool := s != "" && decide (s ∈ packageTypes)

/-- Validator of `membershipStatus`: enum. -/
def validStatus (s : String) : Bool := decide (s ∈ membershipStatuses)

/-- Document validation, as run by `save()` and `create()`. -/
def validateDoc (m : Member) : Bool :=
  validFullName m.fullName && validEmail m.email && validPhone m.phone &&
    validAddress m.address && validPackageType m.packageType && validStatus m.membershipStatus

/-- The `isExpired` virtual: `this.expiryDate < new Date()`. -/
def isExpired (now : Timestamp) (m : Member) : Bool := decide (m.expiryDate < now)

/-- The `daysRemaining` virtual: `Math.ceil((this.expiryDate - new Date()) / msPerDay)`. -/
def daysRemaining (now : Timestamp) (m : Member) : Int := ceilDiv (m.expiryDate - now) msPerDay

/-- The `pre('save')` middleware of `memberSchema`. -/
def preSave (now : Timestamp) (m : Member) : Member :=
  if m.expiryDate < now ∧ m.membershipStatus = "active" then
    { m with membershipStatus := "expired" }
  else m

/-- The rule `correctStatus` in the words of the specification: if
`expiryDate < now` and `status == active`, set `status = expired`; otherwise
unchanged. -/
def correctStatusSpec (now : Timestamp) (m : Member) : Member :=
  { m with membershipStatus :=
      if m.expiryDate < now ∧ m.membershipStatus = "active" then "expired"
      else m.membershipStatus }

/-! ## Requests, errors and responses -/

/-- The route parameter `id`: a string that Mongoose casts to an ObjectId
(`oid`), or one that it cannot cast (`malformed`). -/
inductive ReqId where
  | malformed (raw : String)
  | oid (n : Nat)
deriving DecidableEq, Repr

/-- Errors thrown inside a controller's `try` block. -/
inductive Err where
  /-- A `CastError` with `kind === 'ObjectId'`. -/
  | castObjectId
  /-- A Mongoose `ValidationError` (`name === 'ValidationError'`). -/
  | validation
  /-- The driver's duplicate-key error (code 11000) of the unique index on `email`. -/
  | duplicateKey
  /-- The server's rejection of a `find` command: a regular expression that
  does not compile, a `skip` or a `limit` that it does not take. -/
  | badValue
deriving DecidableEq, Repr

/-- The `message` of a response: a literal of the controller, or the message
of a thrown error. -/
inductive Message where
  | text (s : String)
  | ofError (e : Err)
deriving DecidableEq, Repr

/-- A document of the `User` model, as far as `populate` reads it. -/
structure User where
  _id : Nat
  name : String
  email : String
deriving DecidableEq, Repr

/-- The paths `name email` of a populated `createdBy`. -/
structure UserRef where
  _id : Nat
  name : String
  email : String
deriving DecidableEq, Repr

/-- An entry produced by a `$group` stage with `count: { $sum: 1 }`. -/
structure GroupCount where
  _id : String
  count : Nat
deriving DecidableEq, Repr

/-- The `data` of the statistics response. -/
structure Stats where
  total : Nat
  byStatus : List GroupCount
  byPackage : List GroupCount
  expiringSoon : Nat
deriving DecidableEq, Repr

/-- A JavaScript number that is an integer or an infinity: the values of
the builtin `parseInt` other than `NaN`.  The two zeros are both `finite 0`. -/
inductive JsNum where
  | finite (n : Int)
  | infinite (negative : Bool)
deriving DecidableEq, Repr

/-- The `pagination` object that the list response hands to `res.json`. -/
structure Pagination where
  currentPage : JsNum
  totalPages : Int
  totalItems : Int
  itemsPerPage : JsNum
deriving DecidableEq, Repr

/-- The `data` of a response; `page` also carries the `pagination` object. -/
inductive Data where
  | member (m : Member)
  | populated (m : Member) (createdBy : Option UserRef)
  | deleted (id : ReqId)
  | stats (s : Stats)
  | page (members : List Member) (pagination : Pagination)
deriving DecidableEq, Repr

/-- A response: `res.status(status).json(...)`; the `errors` array of a
failure is left out. -/
structure Response where
  status : Nat
  success : Bool
  message : Option Message
  data : Option Data
deriving DecidableEq, Repr

/-- The helper `handleError(res, error, statusCode = 500)`. -/
def handleError (error : Message) (statusCode : Nat := 500) : Response :=
  { status := statusCode, success := false, message := some error, data := none }

/-- A failure written inline: `res.status(code).json(success: false, message)`. -/
def failure (code : Nat) (msg : String) : Response :=
  { status := code, success := false, message := some (.text msg), data := none }

/-! ## The storage collaborator -/

/-- `Member.findById(id)` for an id that casts. -/
def findById (n : Nat) (store : Store) : Option Member :=
  store.find? (fun m => m._id == n)

/-- Replace the first element that satisfies `p` by its image under `f`. -/
def replaceFirst {α : Type} (p : α → Bool) (f : α → α) : List α → List α
  | [] => []
  | a :: t => if p a then f a :: t else a :: replaceFirst p f t

/-- The unique index on `email`: some document other than `n` holds `email`. -/
def emailTaken (store : Store) (n : Option Nat) (email : String) : Bool :=
  store.any (fun m => some m._id != n && m.email == email)

/-- `populate('createdBy', 'name email')`. -/
def populateCreatedBy (users : List User) (m : Member) : Option UserRef :=
  match m.createdBy with
  | none => none
  | some u => (users.find? (fun x => x._id == u)).map
      (fun x => { _id := x._id, name := x.name, email := x.email })

/-! ## PackagePolicy -/

/-- The keys that the object literal `packageDurations` inherits from
`Object.prototype`: looking one up gives a function or an object, which is
truthy, so `|| 30` does not replace it. -/
def objectPrototypeKeys : List String :=
  ["constructor", "hasOwnProperty", "isPrototypeOf", "propertyIsEnumerable",
   "toLocaleString", "toString", "valueOf", "__proto__", "__defineGetter__",
   "__defineSetter__", "__lookupGetter__", "__lookupSetter__"]

/-- The object literal `packageDurations` of `addMember`. -/
def addPackageDurations : List (String × Nat) :=
  [("trial", 7), ("basic", 30), ("premium", 90), ("elite", 365)]

/-- The object literal `packageDurations` of `renewMembership`. -/
def renewPackageDurations : List (String × Nat) :=
  [("trial", 7), ("basic", 30), ("premium", 90), ("elite", 365)]

/-- The expression `packageDurations[packageType] || 30` over a table of own
properties; `none` stands for a result that is not a number (the key is
inherited from `Object.prototype`).  A missing `packageType` looks up the key
`undefined`, which no table has. -/
def durationDays (table : List (String × Nat)) (packageType : Option String) : Option Nat :=
  match packageType with
  | none => some 30
  | some k =>
    match table.lookup k with
    | some d => if d = 0 then some 30 else some d
    | none => if k ∈ objectPrototypeKeys then none else some 30

/-- The table of the specification: `trial=7, basic=30, premium=90,
elite=365`, and 30 for an unknown or missing tier. -/
def durationDaysSpec (packageType : Option String) : Nat :=
  match packageType with
  | some "trial" => 7
  | some "basic" => 30
  | some "premium" => 90
  | some "elite" => 365
  | _ => 30

/-! ## The controllers -/

/-- The filter of `addMember`: `$or: [email: body.email, phone: body.phone]`,
cast with the setters of the two paths. -/
def addConflict (b : Body) (m : Member) : Bool :=
  (match b.email with
    | some e => m.email == normEmail e
    | none => false) ||
  (match b.phone with
    | some p => m.phone == trim p
    | none => false)

/-- The document that `Member.create` builds from the body, the computed
`expiryDate` and `createdBy`: setters and defaults applied, required paths
still optional. -/
def castNew (freshId : Nat) (now expiry : Timestamp) (actor : Nat) (b : Body) :
    Option Member :=
  match b.fullName, b.email, b.phone, b.address with
  | some fullName, some email, some phone, some address =>
    some
      { _id := freshId
        fullName := trim fullName
        email := normEmail email
        phone := trim phone
        address := trim address
        packageType := b.packageType.getD "basic"
        membershipStatus := b.membershipStatus.getD "active"
        joinDate := b.joinDate.getD now
        expiryDate := expiry
        emergencyContact := b.emergencyContact.getD {}
        medicalInfo := b.medicalInfo.getD {}
        paymentHistory := (b.paymentHistory.getD []).map (castPayment now)
        createdBy := some actor
        createdAt := now
        updatedAt := now }
  | _, _, _, _ => none

/-- The `try` block of `addMember`.  `seen` is the collection when the
conflict query runs and `store` the collection when `Member.create` writes;
they differ only when another request writes in between. -/
def addMemberTry (validationErrors : List String) (actor freshId : Nat) (b : Body)
    (now : Timestamp) (seen store : Store) : Except Err (Response × Store) :=
  if validationErrors ≠ [] then
    .ok (failure 400 "Validation failed", store)
  else if (seen.find? (addConflict b)).isSome then
    .ok (failure 409 "Member with this email or phone already exists", store)
  else
    match durationDays addPackageDurations b.packageType with
    | none => .error .validation
    | some days =>
      match castNew freshId now (addDays now days) actor b with
      | none => .error .validation
      | some doc =>
        if !validateDoc doc then .error .validation
        else
          let saved := preSave now doc
          if emailTaken store none saved.email then .error .duplicateKey
          else
            .ok ({ status := 201, success := true,
                   message := some (.text "Member added successfully"),
                   data := some (.member saved) }, store ++ [saved])

/-- The `catch` block of `addMember`. -/
def addMemberCatch (err : Err) : Response :=
  match err with
  | .validation => handleError (.text "Validation failed") 400
  | e => handleError (.ofError e)

/-- The controller `addMember` when another request may write between its
conflict query and its insert. -/
def addMemberInterleaved (validationErrors : List String) (actor freshId : Nat) (b : Body)
    (now : Timestamp) (seen store : Store) : Response × Store :=
  match addMemberTry validationErrors actor freshId b now seen store with
  | .ok r => r
  | .error e => (addMemberCatch e, store)

/-- The controller `addMember`, served without interleaving. -/
def addMember (validationErrors : List String) (actor freshId : Nat) (b : Body)
    (now : Timestamp) (store : Store) : Response × Store :=
  addMemberInterleaved validationErrors actor freshId b now store store

/-- The controller `getMemberById`. -/
def getMemberById (users : List User) (id : ReqId) (store : Store) : Response × Store :=
  match id with
  | .malformed _ => (handleError (.text "Invalid member ID") 400, store)
  | .oid n =>
    match findById n store with
    | none => (failure 404 "Member not found", store)
    | some member =>
      ({ status := 200, success := true, message := none,
         data := some (.populated member (populateCreatedBy users member)) }, store)

/-- The filter of the conflict check of `updateMember`: `_id: $ne id` and
an `$or` of the `email` and `phone` conditions that the body makes truthy. -/
def conflictQuery (b : Body) (n : Nat) (m : Member) : Bool :=
  m._id != n &&
    ((truthy b.email && m.email == normEmail (b.email.getD "")) ||
     (truthy b.phone && m.phone == trim (b.phone.getD "")))

/-- The update validators run for `$set: req.body` under `runValidators: true`:
every path of the body, after its setters, against the validators of that path. -/
def updateValidators (b : Body) : Bool :=
  (b.fullName.all fun s => validFullName (trim s)) &&
  (b.email.all fun s => validEmail (normEmail s)) &&
  (b.phone.all fun s => validPhone (trim s)) &&
  (b.address.all fun s => validAddress (trim s)) &&
  (b.packageType.all validPackageType) &&
  (b.membershipStatus.all validStatus)

/-- The write of `findByIdAndUpdate(id, $set: req.body)` on the matched
document: every path of the body replaces the stored value, the other paths
stay, and the `timestamps` option sets `updatedAt`. -/
def applySet (now : Timestamp) (b : Body) (m : Member) : Member :=
  { m with
    fullName := (b.fullName.map trim).getD m.fullName
    email := (b.email.map normEmail).getD m.email
    phone := (b.phone.map trim).getD m.phone
    address := (b.address.map trim).getD m.address
    packageType := b.packageType.getD m.packageType
    membershipStatus := b.membershipStatus.getD m.membershipStatus
    joinDate := b.joinDate.getD m.joinDate
    expiryDate := b.expiryDate.getD m.expiryDate
    emergencyContact := b.emergencyContact.getD m.emergencyContact
    medicalInfo := b.medicalInfo.getD m.medicalInfo
    paymentHistory := (b.paymentHistory.map (List.map (castPayment now))).getD m.paymentHistory
    createdBy := match b.createdBy with
      | some u => some u
      | none => m.createdBy
    updatedAt := now }

/-- The `try` block of `updateMember`.  `seen` is the collection when the
conflict query runs and `store` the collection when `findByIdAndUpdate`
writes; they differ only when another request writes in between. -/
def updateMemberTry (validationErrors : List String) (id : ReqId) (b : Body)
    (now : Timestamp) (seen store : Store) : Except Err (Response × Store) :=
  if validationErrors ≠ [] then
    .ok (failure 400 "Validation failed", store)
  else
    match id with
    | .malformed _ => .error .castObjectId
    | .oid n =>
      if (truthy b.email || truthy b.phone) && (seen.find? (conflictQuery b n)).isSome then
        .ok (failure 409 "Email or phone already in use by another member", store)
      else if !updateValidators b then .error .validation
      else
        match findById n store with
        | none => .ok (failure 404 "Member not found", store)
        | some old =>
          let updated := applySet now b old
          if b.email.isSome && emailTaken store (some n) updated.email then
            .error .duplicateKey
          else
            .ok ({ status := 200, success := true,
                   message := some (.text "Member updated successfully"),
                   data := some (.member updated) },
                 replaceFirst (fun m => m._id == n) (applySet now b) store)

/-- The `catch` block of `updateMember`. -/
def updateMemberCatch (err : Err) : Response :=
  match err with
  | .castObjectId => handleError (.text "Invalid member ID") 400
  | .validation => handleError (.text "Validation failed") 400
  | e => handleError (.ofError e)

/-- The controller `updateMember` when another request may write between its
conflict query and its update. -/
def updateMemberInterleaved (validationErrors : List String) (id : ReqId) (b : Body)
    (now : Timestamp) (seen store : Store) : Response × Store :=
  match updateMemberTry validationErrors id b now seen store with
  | .ok r => r
  | .error e => (updateMemberCatch e, store)

/-- The controller `updateMember`, served without interleaving. -/
def updateMember (validationErrors : List String) (id : ReqId) (b : Body)
    (now : Timestamp) (store : Store) : Response × Store :=
  updateMemberInterleaved validationErrors id b now store store

/-- The controller `deleteMember`. -/
def deleteMember (id : ReqId) (store : Store) : Response × Store :=
  match id with
  | .malformed _ => (handleError (.text "Invalid member ID") 400, store)
  | .oid n =>
    match findById n store with
    | none => (failure 404 "Member not found", store)
    | some _ =>
      ({ status := 200, success := true,
         message := some (.text "Member deleted successfully"),
         data := some (.deleted id) }, store.eraseP (fun m => m._id == n))

/-- The fields of the body of a renewal request that the controller reads. -/
structure RenewBody where
  packageType : Option String := none
  paymentAmount : Option Int := none
  paymentMethod : Option String := none
  transactionId : Option String := none
deriving DecidableEq, Repr

/-- The assignments of `renewMembership` to the loaded document, up to
`member.save()`; `none` when the new expiry is an invalid date or
`packageType` is undefined, which validation rejects. -/
def renewAssign (now : Timestamp) (b : RenewBody) (member : Member) : Option Member :=
  let currentExpiry := if member.expiryDate > now then member.expiryDate else now
  match durationDays renewPackageDurations b.packageType, b.packageType with
  | some days, some packageType =>
    some { member with
      packageType := packageType
      expiryDate := addDays currentExpiry days
      membershipStatus := "active"
      paymentHistory := member.paymentHistory ++
        [{ amount := b.paymentAmount, paymentMethod := b.paymentMethod,
           transactionId := b.transactionId, date := now }] }
  | _, _ => none

/-- The `try` block of `renewMembership`.  `save()` validates the document,
runs the `pre('save')` middleware, sets `updatedAt` and writes. -/
def renewMembershipTry (id : ReqId) (b : RenewBody) (now : Timestamp) (store : Store) :
    Except Err (Response × Store) :=
  match id with
  | .malformed _ => .error .castObjectId
  | .oid n =>
    match findById n store with
    | none => .ok (failure 404 "Member not found", store)
    | some member =>
      match renewAssign now b member with
      | none => .error .validation
      | some doc =>
        if !validateDoc doc then .error .validation
        else
          let saved := { preSave now doc with updatedAt := now }
          .ok ({ status := 200, success := true,
                 message := some (.text "Membership renewed successfully"),
                 data := some (.member saved) },
               replaceFirst (fun m => m._id == n) (fun _ => saved) store)

/-- The controller `renewMembership`, with its `catch` block. -/
def renewMembership (id : ReqId) (b : RenewBody) (now : Timestamp) (store : Store) :
    Response × Store :=
  match renewMembershipTry id b now store with
  | .ok r => r
  | .error e => (handleError (.ofError e), store)

/-! ## StatsAggregator -/

/-- The distinct values of a list, in order of first occurrence. -/
def distinct : List String → List String
  | [] => []
  | a :: t => a :: (distinct t).filter (fun b => b != a)

/-- The stage `$group: (_id: key, count: $sum 1)` over the values of the key. -/
def groupCount (keys : List String) : List GroupCount :=
  (distinct keys).map fun k => { _id := k, count := keys.count k }

/-- The stage `$count: 'count'`: no document for an empty input. -/
def countStage {α : Type} (docs : List α) : List Nat :=
  if docs.isEmpty then [] else [docs.length]

/-- The `$match` of the facet `expiringSoon`. -/
def expiringSoonMatch (now : Timestamp) (m : Member) : Bool :=
  decide (now ≤ m.expiryDate) && decide (m.expiryDate ≤ now + 7 * 24 * 60 * 60 * 1000)

/-- The expression `facet[0]?.count || 0`. -/
def countOrZero (facet : List Nat) : Nat :=
  match facet.head? with
  | some c => if c = 0 then 0 else c
  | none => 0

/-- The controller `getMemberStats`. -/
def getMemberStats (now : Timestamp) (store : Store) : Response × Store :=
  ({ status := 200, success := true, message := none,
     data := some (.stats
       { total := countOrZero (countStage store)
         byStatus := groupCount (store.map (·.membershipStatus))
         byPackage := groupCount (store.map (·.packageType))
         expiringSoon := countOrZero (countStage (store.filter (expiringSoonMatch now))) }) },
   store)

/-! ## The list query -/

/-- The query string of `GET /members`, as far as `getMembers` reads it. -/
structure ListQuery where
  page : Option String := none
  limit : Option String := none
  search : Option String := none
  status : Option String := none
  packageType : Option String := none
deriving DecidableEq, Repr

/-- The value of a character as a digit of the radix, if it is one. -/
def digitValue (radix : Nat) (c : Char) : Option Nat :=
  let v :=
    if c.isDigit then c.toNat - 48
    else if c.isLower then c.toNat - 87
    else if c.isUpper then c.toNat - 55
    else radix
  if v < radix then some v else none

/-- The number written by the longest run of digits at the head of the list;
`acc` is the number read so far, `none` before the first digit. -/
def parseDigits (radix : Nat) : List Char → Option Nat → Option Nat
  | [], acc => acc
  | c :: t, acc =>
    match digitValue radix c with
    | some d => parseDigits radix t (some (acc.getD 0 * radix + d))
    | none => acc

/-- The sign at the head of the list and the rest. -/
def splitSign : List Char → Bool × List Char
  | '-' :: t => (true, t)
  | '+' :: t => (false, t)
  | l => (false, l)

/-- The radix announced at the head of the list (`0x` or `0X` for 16) and the rest. -/
def splitRadix : List Char → Nat × List Char
  | '0' :: 'x' :: t => (16, t)
  | '0' :: 'X' :: t => (16, t)
  | l => (10, l)

/-- The least `e`, counted up from the given one in at most `fuel` steps,
for which `n` is below `2 ^ (53 + e)`: the number of low bits of `n` that a
double has no room for. -/
def excessBits : Nat → Nat → Nat → Nat
  | 0, e, _ => e
  | fuel + 1, e, n => if n < 2 ^ (53 + e) then e else excessBits fuel (e + 1) n

/-- The Number value of a natural number: the nearest double, the one with an
even significand when two are equally near, and `Infinity` from
`2 ^ 1024 - 2 ^ 970` on. -/
def toNumber (n : Nat) : JsNum :=
  let e := excessBits n 0 n
  let q := n / 2 ^ e
  let r := n % 2 ^ e
  let up := decide (2 ^ e < 2 * r) || (2 * r == 2 ^ e && q % 2 == 1)
  let m := if up then q + 1 else q
  if e < 971 ∨ (e = 971 ∧ m < 2 ^ 53) then .finite ((m * 2 ^ e : Nat) : Int)
  else .infinite false

/-- The unary minus. -/
def JsNum.neg : JsNum → JsNum
  | .finite n => .finite (-n)
  | .infinite negative => .infinite (!negative)

/-- The builtin `parseInt(value)` on a missing value or a string; `none` is
`NaN`.  The digits are read exactly and the integer is rounded to a double
(the engine may round a decimal text of more than twenty significant digits
less exactly). -/
def parseInt (value : Option String) : Option JsNum :=
  match value with
  | none => none
  | some s =>
    let signed := splitSign (s.data.dropWhile jsWhitespace)
    let based := splitRadix signed.2
    (parseDigits based.1 based.2 none).map fun n =>
      if signed.1 then (toNumber n).neg else toNumber n

/-- The expression `parseInt(value) || fallback`: the fallback replaces `NaN`
and zero. -/
def parseIntOr (value : Option String) (fallback : Int) : JsNum :=
  match parseInt value with
  | some (.finite n) => if n = 0 then .finite fallback else .finite n
  | some (.infinite negative) => .infinite negative
  | none => .finite fallback

/-- A character of a search pattern, as the regular-expression engine reads
it: itself, or any character. -/
inductive Tok where
  | lit (c : Char)
  | any
deriving DecidableEq, Repr

/-- The code points of the characters with a meaning of their own in a
regular expression: the backslash and `^ $ . [ | ( ) ? * + {`. -/
def regexMeta : List Nat := [92, 94, 36, 46, 91, 124, 40, 41, 63, 42, 43, 123]

/-- The pattern of a search text in which each character stands for itself
and a dot for any character; `none` when the text uses other syntax of
regular expressions. -/
def tokenize : List Char → Option (List Tok)
  | [] => some []
  | c :: t =>
    if c = '.' then (tokenize t).map (fun ts => Tok.any :: ts)
    else if c.toNat ∈ regexMeta then none
    else (tokenize t).map (fun ts => Tok.lit c :: ts)

/-- What `getMembers` asks of the storage and of its regular-expression
engine beyond what the embedding computes. -/
structure Storage where
  /-- The option `i`: whether the engine takes a character of the pattern and
  a different character of the text for two cases of one letter. -/
  sameLetter : Char → Char → Bool
  /-- The engine, with the option `i`, on a pattern with syntax other than the
  dot: the texts in which the pattern matches somewhere, or `none` when the
  engine rejects the pattern. -/
  regex : List Char → Option (List Char → Bool)
  /-- The stage `sort(createdAt: -1)`, a function of the documents that match:
  documents with equal `createdAt` come in the same order each time the same
  documents are asked for. -/
  sort : List Member → List Member
  /-- The answer to `find(query).sort(..).skip(skip).limit(limit)` on the
  collection for the query string when `skip` or `limit` is not in the range
  where `findPage` computes the answer (a negative, infinite or `NaN` value,
  or one from `2 ^ 53` on). -/
  findOutside : List Member → ListQuery → Except Err (List Member)

/-- One pattern character against one character of the text, with the option
`i`; a dot matches every character but a line feed. -/
def tokMatches (sameLetter : Char → Char → Bool) : Tok → Char → Bool
  | .lit p, c => p == c || sameLetter p c
  | .any, c => c != Char.ofNat 10

/-- The pattern matches at the head of the text. -/
def matchesPrefix (sameLetter : Char → Char → Bool) : List Tok → List Char → Bool
  | [], _ => true
  | _ :: _, [] => false
  | t :: ts, c :: cs => tokMatches sameLetter t c && matchesPrefix sameLetter ts cs

/-- The operator `$regex` (not anchored): the pattern matches somewhere in the text. -/
def regexFind (sameLetter : Char → Char → Bool) (toks : List Tok) : List Char → Bool
  | [] => matchesPrefix sameLetter toks []
  | c :: cs => matchesPrefix sameLetter toks (c :: cs) || regexFind sameLetter toks cs

/-- The condition `$regex: pattern, $options: 'i'` on a text; `none` when
the engine rejects the pattern. -/
def regexOf (db : Storage) (pattern : List Char) : Option (List Char → Bool) :=
  match tokenize pattern with
  | some toks => some (regexFind db.sameLetter toks)
  | none => db.regex pattern

/-- The query object that `getMembers` builds: the `$or` of the three
`$regex` conditions when there is a search text, and the equalities on
`membershipStatus` and `packageType` when these are given. -/
def listFilter (search : Option (List Char → Bool)) (status packageType : String)
    (m : Member) : Bool :=
  (match search with
    | none => true
    | some re => re m.fullName.data || re m.email.data || re m.phone.data) &&
  (status == "" || m.membershipStatus == status) &&
  (packageType == "" || m.packageType == packageType)

/-- The search condition of a query: `some none` without a search text,
`some (some re)` with one, `none` when the engine rejects the text as a
pattern. -/
def searchOf (db : Storage) (q : ListQuery) : Option (Option (List Char → Bool)) :=
  if q.search.getD "" = "" then some none
  else (regexOf db (q.search.getD "").data).map some

/-- The call `Member.find(query).sort(createdAt: -1).skip(skip).limit(limit)`
with `skip = (page - 1) * limit`.  For a page and a limit of at least one,
with `limit` and `skip` below `2 ^ 53`, the double arithmetic is exact and
the answer is the window of the sorted matching documents; every other case
is left to the storage. -/
def findPage (db : Storage) (q : ListQuery) (store : Store) (query : Member → Bool)
    (page limit : JsNum) : Except Err (List Member) :=
  match page, limit with
  | .finite p, .finite l =>
    let skip := (p - 1) * l
    if 1 ≤ p ∧ 1 ≤ l ∧ l < 2 ^ 53 ∧ skip < 2 ^ 53 then
      .ok (((db.sort (store.filter query)).drop skip.toNat).take l.toNat)
    else db.findOutside store q
  | _, _ => db.findOutside store q

/-- The expression `Math.ceil(total / limit)` for a count `total` and a
`limit` other than zero: the ceiling of the quotient, and zero for an
infinite limit.  The double quotient of a count below `2 ^ 52` rounds to the
same ceiling as the exact one. -/
def totalPagesOf (total : Int) (limit : JsNum) : Int :=
  match limit with
  | .finite l => if 0 < l then ceilDiv total l else -(total / (-l))
  | .infinite _ => 0

/-- The `try` block of `getMembers`. -/
def getMembersTry (db : Storage) (q : ListQuery) (store : Store) : Except Err Response :=
  let page := parseIntOr q.page 1
  let limit := parseIntOr q.limit 10
  match searchOf db q with
  | none => .error .badValue
  | some search =>
    let query := listFilter search (q.status.getD "") (q.packageType.getD "")
    match findPage db q store query page limit with
    | .error e => .error e
    | .ok members =>
      let total : Int := (store.filter query).length
      .ok { status := 200, success := true, message := none,
            data := some (.page members
              { currentPage := page, totalPages := totalPagesOf total limit,
                totalItems := total, itemsPerPage := limit }) }

/-- The controller `getMembers`, with its `catch` block. -/
def getMembers (db : Storage) (q : ListQuery) (store : Store) : Response × Store :=
  match getMembersTry db q store with
  | .ok r => (r, store)
  | .error e => (handleError (.ofError e), store)

/-- The contract of the storage for `sort(createdAt: -1)`: the same
documents, none before one with a later `createdAt`. -/
def SortsByCreatedAtDesc (srt : List Member → List Member) : Prop :=
  ∀ l, (srt l).Perm l ∧ (srt l).Pairwise (fun a b => a.createdAt ≥ b.createdAt)

/-- A sort that keeps documents with equal `createdAt` in the order of the collection. -/
def sortStable (l : List Member) : List Member :=
  l.insertionSort (fun a b => a.createdAt ≥ b.createdAt)

/-- A storage for the examples: letters are compared as `lowerChar` gives
them, every pattern with syntax other than the dot is rejected, the sort is
stable, and every `find` left to the storage is rejected. -/
def sampleDb : Storage :=
  { sameLetter := fun a b => lowerChar a == lowerChar b
    regex := fun _ => none
    sort := sortStable
    findOutside := fun _ _ => .error .badValue }

/-- The storage `sampleDb`, except that a `find` left to the storage is
answered with the whole collection. -/
def lenientDb : Storage := { sampleDb with findOutside := fun store _ => .ok store }

/-- The text in the words of the specification: `needle` occurs in `hay` as a
substring when the case of letters is ignored, two characters being the same
letter when they are equal or `sameLetter` says so. -/
def containsCI (sameLetter : Char → Char → Bool) (needle hay : List Char) : Bool :=
  hay.tails.any fun t =>
    decide (needle.length ≤ t.length) &&
      (needle.zip t).all fun x => x.1 == x.2 || sameLetter x.1 x.2

/-- The filter of the list in the words of the specification: the search text
occurs in `fullName`, `email` or `phone`, the status is the given one, the
package is the given one; an empty or missing condition restricts nothing. -/
def matchesSpec (sameLetter : Char → Char → Bool) (q : ListQuery) (m : Member) : Bool :=
  (q.search.getD "" == "" ||
    containsCI sameLetter (q.search.getD "").data m.fullName.data ||
    containsCI sameLetter (q.search.getD "").data m.email.data ||
    containsCI sameLetter (q.search.getD "").data m.phone.data) &&
  (q.status.getD "" == "" || m.membershipStatus == q.status.getD "") &&
  (q.packageType.getD "" == "" || m.packageType == q.packageType.getD "")

/-- The `data` array of a list response, empty when there is none. -/
def pageData (r : Response × Store) : List Member :=
  match r.1.data with
  | some (.page members _) => members
  | _ => []

/-- The `pagination` object of a list response. -/
def pagination (r : Response × Store) : Option Pagination :=
  match r.1.data with
  | some (.page _ p) => some p
  | _ => none

/-! ## Specification predicates and sample data -/

/-- A field after a merge: the value of the patch when the patch names the
field, the old value otherwise. -/
def patched {α : Type} (p : Option α) (old new : α) : Prop :=
  match p with
  | some v => new = v
  | none => new = old

/-- Some stored document holds the (non-empty) email of the patch or the
(non-empty) phone of the patch, as the setters of the two paths store them. -/
def PatchCollides (b : Body) (store : Store) : Prop :=
  ∃ m ∈ store,
    (∃ e, b.email = some e ∧ e ≠ "" ∧ m.email = normEmail e) ∨
    (∃ p, b.phone = some p ∧ p ≠ "" ∧ m.phone = trim p)

/-- The record after a renewal in the words of the specification: the new
tier, the expiry `max(currentExpiry, now)` plus the duration of the tier,
the status `active`, and one payment entry dated `now` appended; `updatedAt`
is the storage-managed timestamp. -/
def renewSpec (now : Timestamp) (b : RenewBody) (pt : String) (old : Member) : Member :=
  { old with
    packageType := pt
    expiryDate := max old.expiryDate now + (durationDaysSpec (some pt) : Int) * 86400000
    membershipStatus := "active"
    paymentHistory := old.paymentHistory ++
      [{ amount := b.paymentAmount, date := now, paymentMethod := b.paymentMethod,
         transactionId := b.transactionId }]
    updatedAt := now }

/-- A call of one of the four operations that write. -/
inductive Op where
  | add (validationErrors : List String) (actor freshId : Nat) (b : Body) (now : Timestamp)
  | update (validationErrors : List String) (id : ReqId) (b : Body) (now : Timestamp)
  | renew (id : ReqId) (b : RenewBody) (now : Timestamp)
  | remove (id : ReqId)

/-- The collection after the call, successful or not. -/
def Op.run : Op → Store → Store
  | .add ve actor freshId b now, s => (addMember ve actor freshId b now s).2
  | .update ve id b now, s => (updateMember ve id b now s).2
  | .renew id b now, s => (renewMembership id b now s).2
  | .remove id, s => (deleteMember id s).2

/-- The storage generates for a new document an `_id` that no stored
document has. -/
def Op.fresh : Op → Store → Prop
  | .add _ _ freshId _ _, s => ∀ m ∈ s, m._id ≠ freshId
  | _, _ => True

/-- The collections reachable from the empty one by calls executed one at a
time. -/
inductive Reachable : Store → Prop where
  | empty : Reachable []
  | step (s : Store) (op : Op) : Reachable s → op.fresh s → Reachable (op.run s)

/-- The instant 2024-01-01T00:00:00Z. -/
def jan1 : Timestamp := 1704067200000

/-- The instant 2024-03-01T00:00:00Z. -/
def mar1 : Timestamp := 1709251200000

/-- A stored member: basic package, joined 2024-01-01, expiry 2024-01-31. -/
def alice : Member :=
  { _id := 1, fullName := "Alice Roy", email := "alice@gym.com", phone := "9876543210",
    address := "12 Main Street", packageType := "basic", membershipStatus := "active",
    joinDate := jan1, expiryDate := 1706659200000, emergencyContact := {}, medicalInfo := {},
    paymentHistory := [], createdBy := some 7, createdAt := jan1, updatedAt := jan1 }

/-- A second stored member. -/
def bob : Member :=
  { _id := 2, fullName := "Bob Sen", email := "bob@gym.com", phone := "9876543211",
    address := "34 Park Avenue", packageType := "premium", membershipStatus := "suspended",
    joinDate := jan1, expiryDate := 1711843200000, emergencyContact := {}, medicalInfo := {},
    paymentHistory := [], createdBy := some 7, createdAt := jan1, updatedAt := jan1 }

/-- A stored member whose membership ran out on 2024-01-01. -/
def carol : Member :=
  { _id := 3, fullName := "Carol Das", email := "carol@gym.com", phone := "9876543212",
    address := "78 Hill Road", packageType := "trial", membershipStatus := "expired",
    joinDate := 1703462400000, expiryDate := jan1, emergencyContact := {}, medicalInfo := {},
    paymentHistory := [], createdBy := some 7, createdAt := 1703462400000,
    updatedAt := 1703462400000 }

/-- A renewal request for the basic package. -/
def renewBasic : RenewBody :=
  { packageType := some "basic", paymentAmount := some 1500, paymentMethod := some "cash",
    transactionId := some "TXN-1" }

/-- The body of a create request for the trial package that also carries an
`expiryDate`, a `createdBy` and a `joinDate` of its own. -/
def daveBody : Body :=
  { fullName := some "Dave Pal", email := some "dave@gym.com", phone := some "9876543213",
    address := some "90 River Lane", packageType := some "trial",
    joinDate := some 1672531200000, expiryDate := some 0, createdBy := some 99 }

/-- The page strings of the first three pages. -/
def threePages (p : Nat) : Option String :=
  if p = 1 then some "1" else if p = 2 then some "2" else some "3"

/-- The body of an edit with the five paths the route validates and a
`membershipStatus` outside the enum. -/
def erinEdit : Body :=
  { fullName := some "Erin Bose", email := some "erin@gym.com", phone := some "9876543219",
    address := some "11 Mill Street", packageType := some "basic",
    membershipStatus := some "paused" }

/-- The body of an edit of `alice` that changes her address only, with the
five paths the route validates. -/
def aliceEdit : Body :=
  { fullName := some "Alice Roy", email := some "alice@gym.com", phone := some "9876543210",
    address := some "56 Lake Road", packageType := some "basic" }

/-- The edit of the address of `alice` with a `joinDate` in the body. -/
def aliceBackdate : Body := { aliceEdit with joinDate := some 0 }

/-- The stored member `carol` after one payment. -/
def carolPaid : Member :=
  { carol with
    paymentHistory := [{ amount := some 1500, date := jan1, paymentMethod := some "cash",
                         transactionId := some "TXN-0" }] }

/-- An edit of `carol` with the five paths the route validates and an empty
`paymentHistory` in the body. -/
def carolWipe : Body :=
  { fullName := some "Carol Das", email := some "carol@gym.com", phone := some "9876543212",
    address := some "78 Hill Road", packageType := some "trial", paymentHistory := some [] }

/-- The document that a concurrent request has created from `daveBody`. -/
def dave : Member :=
  { _id := 4, fullName := "Dave Pal", email := "dave@gym.com", phone := "9876543213",
    address := "90 River Lane", packageType := "trial", membershipStatus := "active",
    joinDate := jan1, expiryDate := 1704672000000, emergencyContact := {}, medicalInfo := {},
    paymentHistory := [], createdBy := some 8, createdAt := jan1, updatedAt := jan1 }

/-- An edit of `alice` that moves her to the email of `dave`. -/
def aliceToDave : Body := { aliceEdit with email := some "dave@gym.com" }

/-- A renewal request for a package outside the enum. -/
def renewGold : RenewBody := { renewBasic with packageType := some "gold" }

/-- The body of a request for a person nobody in the samples shares an email
or a phone with, with the five paths the routes validate. -/
def frankBody : Body :=
  { fullName := some "Frank Dey", email := some "frank@gym.com", phone := some "9876543215",
    address := some "21 Canal Street", packageType := some "premium" }

/-- The body `frankBody` with the email of `daveBody`, in capitals. -/
def frankAsDave : Body := { frankBody with email := some "DAVE@GYM.COM" }

/-- The collection after the creation of a member from `daveBody` and of one
from `frankBody`. -/
def daveAndFrank : Store :=
  (Op.add [] 7 5 frankBody jan1).run ((Op.add [] 7 4 daveBody jan1).run [])

/-- Four further calls on `daveAndFrank`: a creation from `daveBody` again, an
edit that moves the second member to the email of the first, a renewal of the
first member, and a creation with the phone of the second member. -/
def daveAndFrankLater : Store :=
  (Op.add [] 7 7 { daveBody with phone := some "9876543215" } mar1).run
    ((Op.renew (.oid 4) renewBasic mar1).run
      ((Op.update [] (.oid 5) frankAsDave mar1).run
        ((Op.add [] 7 6 daveBody mar1).run daveAndFrank)))

/-! ## Lemmas on the storage collaborator -/

theorem find_split {α : Type} (p : α → Bool) :
    ∀ (l : List α) (a : α), l.find? p = some a →
      ∃ l1 l2, l = l1 ++ a :: l2 ∧ (∀ x ∈ l1, p x = false) ∧ p a = true := by
  intro l
  induction l with
  | nil => intro a h; simp at h
  | cons x t ih =>
    intro a h
    by_cases hx : p x = true
    · rw [List.find?_cons_of_pos _ hx] at h
      cases h
      exact ⟨[], t, rfl, by simp, hx⟩
    · rw [List.find?_cons_of_neg _ hx] at h
      obtain ⟨l1, l2, hl, h1, h2⟩ := ih a h
      refine ⟨x :: l1, l2, by simp [hl], ?_, h2⟩
      intro y hy
      rcases List.mem_cons.mp hy with rfl | hy
      · simpa using hx
      · exact h1 y hy

theorem replaceFirst_split {α : Type} (p : α → Bool) (f : α → α) (a : α) (l2 : List α) :
    ∀ l1 : List α, (∀ x ∈ l1, p x = false) → p a = true →
      replaceFirst p f (l1 ++ a :: l2) = l1 ++ f a :: l2 := by
  intro l1
  induction l1 with
  | nil => intro _ ha; simp [replaceFirst, ha]
  | cons x t ih =>
    intro h ha
    have hx : p x = false := h x (by simp)
    have ht : ∀ y ∈ t, p y = false := fun y hy => h y (by simp [hy])
    simp [replaceFirst, hx, ih ht ha]

theorem eraseP_split {α : Type} (p : α → Bool) (a : α) (l2 : List α) :
    ∀ l1 : List α, (∀ x ∈ l1, p x = false) → p a = true →
      (l1 ++ a :: l2).eraseP p = l1 ++ l2 := by
  intro l1
  induction l1 with
  | nil => intro _ ha; simp [List.eraseP_cons, ha]
  | cons x t ih =>
    intro h ha
    have hx : p x = false := h x (by simp)
    have ht : ∀ y ∈ t, p y = false := fun y hy => h y (by simp [hy])
    simp [List.eraseP_cons, hx, ih ht ha]

theorem findById_split (n : Nat) (store : Store) (m : Member)
    (h : findById n store = some m) :
    ∃ l1 l2, store = l1 ++ m :: l2 ∧ (∀ x ∈ l1, x._id ≠ n) ∧ m._id = n := by
  obtain ⟨l1, l2, hl, h1, h2⟩ := find_split _ store m h
  refine ⟨l1, l2, hl, ?_, by simpa using h2⟩
  intro x hx
  simpa using h1 x hx

theorem findById_none (n : Nat) (store : Store) (h : findById n store = none) :
    ∀ x ∈ store, x._id ≠ n := by
  intro x hx
  have := List.find?_eq_none.mp h x hx
  simpa using this

/-! ## Lengths of strings -/

/-- The validators count UTF-16 code units: a name of one character outside
the basic plane has length two and passes `minlength: 2`; 50 such characters
pass `maxlength: 100` and 51 do not; an address of 101 such characters fails
`maxlength: 200`. -/
theorem validators_count_code_units :
    validFullName (String.mk [Char.ofNat 0x1F600]) = true ∧
    validFullName (String.mk (List.replicate 50 (Char.ofNat 0x1F600))) = true ∧
    validFullName (String.mk (List.replicate 51 (Char.ofNat 0x1F600))) = false ∧
    validFullName "A" = false ∧
    validAddress (String.mk (List.replicate 100 (Char.ofNat 0x1F600))) = true ∧
    validAddress (String.mk (List.replicate 101 (Char.ofNat 0x1F600))) = false := by
  decide

/-! ## Lemmas on dates -/

theorem msPerDay_pos : 0 < msPerDay := by decide

theorem ceilDiv_bounds (a : Int) :
    (ceilDiv a msPerDay - 1) * msPerDay < a ∧ a ≤ ceilDiv a msPerDay * msPerDay := by
  unfold ceilDiv
  have hpos := msPerDay_pos
  have h1 := Int.ediv_add_emod (-a) msPerDay
  have h2 := Int.emod_nonneg (-a) (ne_of_gt hpos)
  have h3 := Int.emod_lt_of_pos (-a) hpos
  constructor <;> nlinarith

theorem ceilDiv_eq_ceil (a : Int) : ceilDiv a msPerDay = ⌈(a : ℚ) / (msPerDay : ℚ)⌉ := by
  obtain ⟨h1, h2⟩ := ceilDiv_bounds a
  have hpos : (0 : ℚ) < (msPerDay : ℚ) := by exact_mod_cast msPerDay_pos
  symm
  rw [Int.ceil_eq_iff]
  constructor
  · rw [lt_div_iff₀ hpos]
    exact_mod_cast h1
  · rw [div_le_iff₀ hpos]
    exact_mod_cast h2

theorem ceilDiv_pos_iff (a : Int) : 1 ≤ ceilDiv a msPerDay ↔ 0 < a := by
  obtain ⟨h1, h2⟩ := ceilDiv_bounds a
  have hpos := msPerDay_pos
  constructor
  · intro h
    nlinarith
  · intro h
    by_contra hc
    have : ceilDiv a msPerDay ≤ 0 := by omega
    nlinarith

/-! ## The status rule and the virtuals -/

/-- C16: the `pre('save')` middleware is the rule `correctStatus`: the status
becomes `expired` when the expiry is before `now` and the status was `active`,
it keeps its value otherwise, and no other field is modified. -/
theorem preSave_eq_correctStatus (now : Timestamp) (m : Member) :
    preSave now m = correctStatusSpec now m ∧
    (preSave now m).membershipStatus =
      (if m.expiryDate < now ∧ m.membershipStatus = "active" then "expired"
       else m.membershipStatus) ∧
    (∀ s, s = "inactive" ∨ s = "suspended" ∨ s = "expired" →
      m.membershipStatus = s → (preSave now m).membershipStatus = s) ∧
    (now ≤ m.expiryDate → (preSave now m).membershipStatus = m.membershipStatus) ∧
    { preSave now m with membershipStatus := m.membershipStatus } = m := by
  unfold preSave correctStatusSpec
  by_cases h : m.expiryDate < now ∧ m.membershipStatus = "active"
  · simp only [if_pos h, true_and]
    refine ⟨?_, ?_, trivial⟩
    · intro s hs hm
      rw [hm] at h
      rcases hs with rfl | rfl | rfl <;> exact absurd h.2 (by decide)
    · intro hle
      exact absurd h.1 (not_lt.mpr hle)
  · simp only [if_neg h, true_and]
    exact ⟨fun s _ hm => hm, fun _ => trivial, trivial⟩

/-- C17: the status correction is idempotent: applying the `pre('save')`
middleware twice at the same instant gives what applying it once gives. -/
theorem preSave_idempotent (now : Timestamp) (m : Member) :
    preSave now (preSave now m) = preSave now m := by
  by_cases h : m.expiryDate < now ∧ m.membershipStatus = "active"
  · have e : preSave now m = { m with membershipStatus := "expired" } := by
      simp [preSave, h]
    rw [e]
    simp [preSave]
  · have e : preSave now m = m := by simp only [preSave, if_neg h]
    rw [e, e]

/-- C18: `isExpired` holds exactly when the expiry is before `now`;
`daysRemaining` is the ceiling of `(expiryDate - now) / 86400000`, it is at
most zero when the expiry is not after `now`, and it is at least one exactly
when the expiry is after `now`. -/
theorem virtuals_spec (now : Timestamp) (m : Member) :
    (isExpired now m = true ↔ m.expiryDate < now) ∧
    daysRemaining now m = ⌈((m.expiryDate - now : Int) : ℚ) / 86400000⌉ ∧
    (m.expiryDate ≤ now → daysRemaining now m ≤ 0) ∧
    (1 ≤ daysRemaining now m ↔ now < m.expiryDate) := by
  have hpos := ceilDiv_pos_iff (m.expiryDate - now)
  refine ⟨by simp [isExpired], ?_, ?_, ?_⟩
  · unfold daysRemaining
    rw [ceilDiv_eq_ceil]
    norm_num [msPerDay]
  · intro h
    unfold daysRemaining
    by_contra hc
    have h1 : 0 < m.expiryDate - now := hpos.mp (by omega)
    exact absurd (sub_pos.mp h1) (not_lt.mpr h)
  · unfold daysRemaining
    rw [hpos]
    exact sub_pos

/-! ## Reads and deletion -/

/-- C14: `deleteMember` on an id that resolves removes the resolved document
and nothing else, keeps the order of the others, and answers with the same id;
on an id that does not resolve it answers 404 and leaves the collection as it
was. -/
theorem deleteMember_spec (n : Nat) (store : Store) :
    match findById n store with
    | some m =>
      ∃ l1 l2, store = l1 ++ m :: l2 ∧ (∀ x ∈ l1, x._id ≠ n) ∧ m._id = n ∧
        (deleteMember (.oid n) store).2 = l1 ++ l2 ∧
        (deleteMember (.oid n) store).1.status = 200 ∧
        (deleteMember (.oid n) store).1.data = some (.deleted (.oid n))
    | none =>
      deleteMember (.oid n) store = (failure 404 "Member not found", store) := by
  cases h : findById n store with
  | none => simp [deleteMember, h]
  | some m =>
    obtain ⟨l1, l2, hl, h1, h2⟩ := findById_split n store m h
    refine ⟨l1, l2, hl, h1, h2, ?_, ?_, ?_⟩
    · simp only [deleteMember, h]
      rw [hl]
      apply eraseP_split
      · intro x hx
        simpa using h1 x hx
      · simpa using h2
    · simp [deleteMember, h]
    · simp [deleteMember, h]

/-- C15: on an id that does not resolve, `getMemberById` and
`renewMembership` answer 404 and leave the collection as it was; on an id that
resolves, `getMemberById` answers with the resolved document (its `createdBy`
populated) and leaves the collection as it was. -/
theorem notFound_and_read (users : List User) (n : Nat) (b : RenewBody) (now : Timestamp)
    (store : Store) :
    match findById n store with
    | none =>
      getMemberById users (.oid n) store = (failure 404 "Member not found", store) ∧
      renewMembership (.oid n) b now store = (failure 404 "Member not found", store)
    | some m =>
      getMemberById users (.oid n) store =
        ({ status := 200, success := true, message := none,
           data := some (.populated m (populateCreatedBy users m)) }, store) := by
  cases h : findById n store with
  | none => simp [getMemberById, renewMembership, renewMembershipTry, h]
  | some m => simp [getMemberById, h]

/-! ## Statistics -/

theorem mem_distinct (a : String) : ∀ l : List String, a ∈ distinct l ↔ a ∈ l := by
  intro l
  induction l with
  | nil => simp [distinct]
  | cons x t ih =>
    by_cases h : a = x
    · simp [distinct, h]
    · simp [distinct, h, ih, List.mem_filter]

theorem nodup_distinct : ∀ l : List String, (distinct l).Nodup := by
  intro l
  induction l with
  | nil => simp [distinct]
  | cons x t ih =>
    simp only [distinct, List.nodup_cons]
    refine ⟨?_, ih.filter _⟩
    simp [List.mem_filter]

theorem groupCount_ids (keys : List String) :
    (groupCount keys).map (fun g => g._id) = distinct keys := by
  simp [groupCount, Function.comp_def]

theorem mem_groupCount (keys : List String) (s : String) (n : Nat) :
    ({ _id := s, count := n } : GroupCount) ∈ groupCount keys ↔
      0 < n ∧ n = keys.count s := by
  simp only [groupCount, List.mem_map, mem_distinct]
  constructor
  · rintro ⟨k, hk, he⟩
    simp only [GroupCount.mk.injEq] at he
    obtain ⟨rfl, rfl⟩ := he
    exact ⟨List.count_pos_iff.mpr hk, rfl⟩
  · rintro ⟨hpos, rfl⟩
    exact ⟨s, List.count_pos_iff.mp hpos, rfl⟩

theorem count_map_eq_filter (f : Member → String) (s : String) (store : Store) :
    (store.map f).count s = (store.filter (fun m => decide (f m = s))).length := by
  induction store with
  | nil => simp
  | cons x t ih =>
    by_cases h : f x = s
    · simp [List.count_cons, h, ih]
    · simp [List.count_cons, h, ih]

theorem countOrZero_countStage {α : Type} (l : List α) : countOrZero (countStage l) = l.length := by
  cases l with
  | nil => simp [countStage, countOrZero]
  | cons x t => simp [countStage, countOrZero]

/-- C19: in the statistics, `byStatus` has exactly one entry for each
`membershipStatus` that occurs in the collection, its count is the number of
documents with that status, and no entry has count zero; `byPackage` is the
same over `packageType`; `total` is the number of documents. -/
theorem getMemberStats_groups (now : Timestamp) (store : Store) :
    ∃ st, getMemberStats now store =
        ({ status := 200, success := true, message := none, data := some (.stats st) }, store) ∧
      st.total = store.length ∧
      (st.byStatus.map (fun g => g._id)).Nodup ∧
      (∀ s n, ({ _id := s, count := n } : GroupCount) ∈ st.byStatus ↔
        0 < n ∧ n = (store.filter (fun m => decide (m.membershipStatus = s))).length) ∧
      (st.byPackage.map (fun g => g._id)).Nodup ∧
      (∀ s n, ({ _id := s, count := n } : GroupCount) ∈ st.byPackage ↔
        0 < n ∧ n = (store.filter (fun m => decide (m.packageType = s))).length) := by
  refine ⟨_, rfl, countOrZero_countStage store, ?_, ?_, ?_, ?_⟩
  · rw [groupCount_ids]; exact nodup_distinct _
  · intro s n
    rw [mem_groupCount, count_map_eq_filter]
  · rw [groupCount_ids]; exact nodup_distinct _
  · intro s n
    rw [mem_groupCount, count_map_eq_filter]

/-- C20: in the statistics, `expiringSoon` is the number of documents whose
expiry lies between `now` and `now` plus seven days, both ends included; it
does not depend on the `membershipStatus` of any document. -/
theorem getMemberStats_expiringSoon (now : Timestamp) (store : Store) :
    ∃ st, (getMemberStats now store).1.data = some (.stats st) ∧
      st.expiringSoon =
        (store.filter (fun m => decide (now ≤ m.expiryDate ∧
          m.expiryDate ≤ now + 7 * 24 * 60 * 60 * 1000))).length ∧
      ∀ f : Member → String, ∃ st2,
        (getMemberStats now (store.map fun m => { m with membershipStatus := f m })).1.data =
          some (.stats st2) ∧ st2.expiringSoon = st.expiringSoon := by
  refine ⟨_, rfl, ?_, ?_⟩
  · simp only [countOrZero_countStage]
    congr 2
    funext m
    simp [expiringSoonMatch]
  · intro f
    refine ⟨_, rfl, ?_⟩
    simp only [countOrZero_countStage, List.filter_map, List.length_map]
    rfl

/-! ## Update -/

theorem updateMember_ok (ve : List String) (id : ReqId) (b : Body) (now : Timestamp)
    (store : Store) (h : (updateMember ve id b now store).1.status = 200) :
    ∃ n old, id = .oid n ∧ findById n store = some old ∧ ve = [] ∧
      updateValidators b = true ∧
      ¬ ((truthy b.email || truthy b.phone) &&
        (store.find? (conflictQuery b n)).isSome) = true ∧
      updateMember ve id b now store =
        ({ status := 200, success := true,
           message := some (.text "Member updated successfully"),
           data := some (.member (applySet now b old)) },
         replaceFirst (fun m => m._id == n) (applySet now b) store) := by
  unfold updateMember updateMemberInterleaved updateMemberTry at h ⊢
  by_cases hve : ve = []
  · subst hve
    cases id with
    | malformed raw => simp [handleError, updateMemberCatch, addMemberCatch] at h
    | oid n =>
      simp only [ne_eq, not_true_eq_false, if_false] at h ⊢
      split_ifs at h ⊢ with hc hv
      · simp [failure] at h
      · simp [handleError, updateMemberCatch, addMemberCatch] at h
      · cases hf : findById n store with
        | none => simp [hf, failure] at h
        | some old =>
          simp only [hf] at h ⊢
          split_ifs at h ⊢ with hd
          · simp [handleError, updateMemberCatch, addMemberCatch] at h
          · exact ⟨n, old, rfl, hf, trivial, by simpa using hv, hc, rfl⟩
  · simp [hve, failure] at h

theorem conflict_iff (b : Body) (n : Nat) (store : Store) :
    ((truthy b.email || truthy b.phone) && (store.find? (conflictQuery b n)).isSome) = true ↔
      ∃ m ∈ store, m._id ≠ n ∧
        ((∃ e, b.email = some e ∧ e ≠ "" ∧ m.email = normEmail e) ∨
         (∃ p, b.phone = some p ∧ p ≠ "" ∧ m.phone = trim p)) := by
  rw [Bool.and_eq_true, List.find?_isSome]
  constructor
  · rintro ⟨_, m, hm, hq⟩
    refine ⟨m, hm, ?_⟩
    unfold conflictQuery at hq
    rcases hbe : b.email with _ | e <;> rcases hbp : b.phone with _ | p <;>
      simp [hbe, hbp, truthy] at hq ⊢ <;> tauto
  · rintro ⟨m, hm, hid, hor⟩
    have hq : conflictQuery b n m = true := by
      unfold conflictQuery
      rcases hor with ⟨e, he, hne, hme⟩ | ⟨p, hp, hne, hmp⟩
      · simp [he, truthy, hne, hme, hid]
      · simp [hp, truthy, hne, hmp, hid]
    refine ⟨?_, m, hm, hq⟩
    rcases hor with ⟨e, he, hne, _⟩ | ⟨p, hp, hne, _⟩
    · simp [he, truthy, hne]
    · simp [hp, truthy, hne]

/-- C11, as amended: a successful `updateMember` keeps every other document
and the order of the collection, and in the target document it sets each path
named by the patch to the value of the patch as the setters of the path store
it (trimmed; the email also lower-cased), sets `updatedAt` to `now`, and keeps
every other field; with the empty patch only `updatedAt` changes. -/
theorem updateMember_merge (ve : List String) (n : Nat) (b : Body) (now : Timestamp)
    (store : Store) (h : (updateMember ve (.oid n) b now store).1.status = 200) :
    ∃ l1 old l2 new, store = l1 ++ old :: l2 ∧ (∀ x ∈ l1, x._id ≠ n) ∧ old._id = n ∧
      (updateMember ve (.oid n) b now store).2 = l1 ++ new :: l2 ∧
      (updateMember ve (.oid n) b now store).1.data = some (.member new) ∧
      new._id = old._id ∧
      patched (b.fullName.map trim) old.fullName new.fullName ∧
      patched (b.email.map normEmail) old.email new.email ∧
      patched (b.phone.map trim) old.phone new.phone ∧
      patched (b.address.map trim) old.address new.address ∧
      patched b.packageType old.packageType new.packageType ∧
      patched b.membershipStatus old.membershipStatus new.membershipStatus ∧
      patched b.joinDate old.joinDate new.joinDate ∧
      patched b.expiryDate old.expiryDate new.expiryDate ∧
      patched b.emergencyContact old.emergencyContact new.emergencyContact ∧
      patched b.medicalInfo old.medicalInfo new.medicalInfo ∧
      patched (b.paymentHistory.map (List.map (castPayment now)))
        old.paymentHistory new.paymentHistory ∧
      patched (b.createdBy.map some) old.createdBy new.createdBy ∧
      new.createdAt = old.createdAt ∧
      new.updatedAt = now ∧
      (b = {} → new = { old with updatedAt := now }) := by
  obtain ⟨n2, old, hid, hf, _, _, _, he⟩ := updateMember_ok ve (.oid n) b now store h
  cases hid
  obtain ⟨l1, l2, hl, h1, h2⟩ := findById_split n store old hf
  refine ⟨l1, old, l2, applySet now b old, hl, h1, h2, ?_, by rw [he], rfl, ?_⟩
  · rw [he, hl]
    apply replaceFirst_split
    · intro x hx
      simpa using h1 x hx
    · simpa using h2
  · refine ⟨?_, ?_, ?_, ?_, ?_, ?_, ?_, ?_, ?_, ?_, ?_, ?_, rfl, rfl, ?_⟩
    · cases hb : b.fullName <;> simp [patched, applySet, hb]
    · cases hb : b.email <;> simp [patched, applySet, hb]
    · cases hb : b.phone <;> simp [patched, applySet, hb]
    · cases hb : b.address <;> simp [patched, applySet, hb]
    · cases hb : b.packageType <;> simp [patched, applySet, hb]
    · cases hb : b.membershipStatus <;> simp [patched, applySet, hb]
    · cases hb : b.joinDate <;> simp [patched, applySet, hb]
    · cases hb : b.expiryDate <;> simp [patched, applySet, hb]
    · cases hb : b.emergencyContact <;> simp [patched, applySet, hb]
    · cases hb : b.medicalInfo <;> simp [patched, applySet, hb]
    · cases hb : b.paymentHistory <;> simp [patched, applySet, hb]
    · cases hb : b.createdBy <;> simp [patched, applySet, hb]
    · intro hb
      subst hb
      rfl

/-- Witness of C11: the edit of the address of `alice` succeeds. -/
theorem updateMember_merge_witness :
    (updateMember [] (.oid 1) aliceEdit mar1 [alice, bob]).1.status = 200 ∧
    ∃ l1 old l2 new, [alice, bob] = l1 ++ old :: l2 ∧ (∀ x ∈ l1, x._id ≠ 1) ∧ old._id = 1 ∧
      (updateMember [] (.oid 1) aliceEdit mar1 [alice, bob]).2 = l1 ++ new :: l2 ∧
      (updateMember [] (.oid 1) aliceEdit mar1 [alice, bob]).1.data = some (.member new) ∧
      new._id = old._id ∧
      patched (aliceEdit.fullName.map trim) old.fullName new.fullName ∧
      patched (aliceEdit.email.map normEmail) old.email new.email ∧
      patched (aliceEdit.phone.map trim) old.phone new.phone ∧
      patched (aliceEdit.address.map trim) old.address new.address ∧
      patched aliceEdit.packageType old.packageType new.packageType ∧
      patched aliceEdit.membershipStatus old.membershipStatus new.membershipStatus ∧
      patched aliceEdit.joinDate old.joinDate new.joinDate ∧
      patched aliceEdit.expiryDate old.expiryDate new.expiryDate ∧
      patched aliceEdit.emergencyContact old.emergencyContact new.emergencyContact ∧
      patched aliceEdit.medicalInfo old.medicalInfo new.medicalInfo ∧
      patched (aliceEdit.paymentHistory.map (List.map (castPayment mar1)))
        old.paymentHistory new.paymentHistory ∧
      patched (aliceEdit.createdBy.map some) old.createdBy new.createdBy ∧
      new.createdAt = old.createdAt ∧
      new.updatedAt = mar1 ∧
      (aliceEdit = {} → new = { old with updatedAt := mar1 }) :=
  ⟨by decide, updateMember_merge [] 1 aliceEdit mar1 [alice, bob] (by decide)⟩

/-- Counterexample to C11 as stated: the edit of the address of `alice`
succeeds and changes `updatedAt`, a field the patch does not name; the empty
patch succeeds and changes the stored document; and a patch whose email has
capital letters succeeds and stores another value than the patch gives. -/
theorem updateMember_not_exact :
    (updateMember [] (.oid 1) aliceEdit mar1 [alice]).1.status = 200 ∧
    (updateMember [] (.oid 1) aliceEdit mar1 [alice]).2.map (fun m => m.updatedAt) = [mar1] ∧
    alice.updatedAt ≠ mar1 ∧
    (updateMember [] (.oid 1) {} mar1 [alice]).1.status = 200 ∧
    (updateMember [] (.oid 1) {} mar1 [alice]).2 ≠ [alice] ∧
    (updateMember [] (.oid 1) { email := some "Alice@Gym.com" } mar1 [alice]).1.status = 200 ∧
    ((updateMember [] (.oid 1) { email := some "Alice@Gym.com" } mar1 [alice]).2.map
      fun m => m.email) = ["alice@gym.com"] := by
  decide

/-- C12, the code at the failing input: an edit of the address of `alice` a
month after her expiry succeeds and stores her with an expiry before `now` and
the status `active`, a document that the `pre('save')` middleware would
change. -/
theorem updateMember_skips_status_correction :
    (updateMember [] (.oid 1) aliceEdit mar1 [alice]).1.status = 200 ∧
    ∃ m, (updateMember [] (.oid 1) aliceEdit mar1 [alice]).2 = [m] ∧
      m.expiryDate < mar1 ∧ m.membershipStatus = "active" ∧ preSave mar1 m ≠ m := by
  refine ⟨by decide, applySet mar1 aliceEdit alice, by decide, by decide, by decide, by decide⟩

/-- C13, as amended: when the id does not resolve, `updateMember` leaves the
collection as it was; it answers 409 when a stored document holds the email or
the phone of the patch, and 404 when none does and the patch passes the
update validators. -/
theorem updateMember_absent (n : Nat) (b : Body) (now : Timestamp) (store : Store)
    (h : findById n store = none) :
    (∀ ve, (updateMember ve (.oid n) b now store).2 = store) ∧
    (PatchCollides b store → updateMember [] (.oid n) b now store =
      (failure 409 "Email or phone already in use by another member", store)) ∧
    (¬ PatchCollides b store → updateValidators b = true →
      updateMember [] (.oid n) b now store = (failure 404 "Member not found", store)) := by
  have hids := findById_none n store h
  have hiff : ((truthy b.email || truthy b.phone) &&
      (store.find? (conflictQuery b n)).isSome) = true ↔ PatchCollides b store := by
    rw [conflict_iff]
    constructor
    · rintro ⟨m, hm, _, hor⟩
      exact ⟨m, hm, hor⟩
    · rintro ⟨m, hm, hor⟩
      exact ⟨m, hm, hids m hm, hor⟩
  refine ⟨?_, ?_, ?_⟩
  · intro ve
    unfold updateMember updateMemberInterleaved updateMemberTry
    by_cases hve : ve = []
    · simp only [hve, h]
      split_ifs <;> rfl
    · simp [hve]
  · intro hc
    unfold updateMember updateMemberInterleaved updateMemberTry
    simp [hiff.mpr hc]
  · intro hc hv
    have hc2 := mt hiff.mp hc
    unfold updateMember updateMemberInterleaved updateMemberTry
    simp only [h, hv]
    simp only [ne_eq, not_true_eq_false, if_false, if_neg hc2]
    rfl

/-- Witness of C13: the id 3 does not resolve in the collection of `alice`
and `bob`; the patch `aliceEdit`, which carries the email of `alice`, is
answered 409, and the patch `frankBody`, which collides with nobody and passes
the update validators, is answered 404. -/
theorem updateMember_absent_witness :
    findById 3 [alice, bob] = none ∧
    (∀ ve, (updateMember ve (.oid 3) aliceEdit mar1 [alice, bob]).2 = [alice, bob]) ∧
    updateMember [] (.oid 3) aliceEdit mar1 [alice, bob] =
      (failure 409 "Email or phone already in use by another member", [alice, bob]) ∧
    updateMember [] (.oid 3) frankBody mar1 [alice, bob] =
      (failure 404 "Member not found", [alice, bob]) :=
  ⟨by decide,
    (updateMember_absent 3 aliceEdit mar1 [alice, bob] (by decide)).1,
    (updateMember_absent 3 aliceEdit mar1 [alice, bob] (by decide)).2.1
      ⟨alice, by simp, Or.inl ⟨"alice@gym.com", rfl, by decide, by decide⟩⟩,
    (updateMember_absent 3 frankBody mar1 [alice, bob] (by decide)).2.2
      (by
        rintro ⟨m, hm, hc⟩
        have hm2 : m = alice ∨ m = bob := by simpa using hm
        rcases hc with ⟨e, he, _, hme⟩ | ⟨p, hp, _, hmp⟩
        · have he2 : e = "frank@gym.com" := by
            have := he
            simp only [frankBody, Option.some.injEq] at this
            exact this.symm
          subst he2
          rcases hm2 with rfl | rfl
          · exact absurd hme (by decide)
          · exact absurd hme (by decide)
        · have hp2 : p = "9876543215" := by
            have := hp
            simp only [frankBody, Option.some.injEq] at this
            exact this.symm
          subst hp2
          rcases hm2 with rfl | rfl
          · exact absurd hmp (by decide)
          · exact absurd hmp (by decide))
      (by decide)⟩

/-- Counterexample to C13 as stated: the id 3 does not resolve, the patch
carries the email of `alice`, and the answer is 409; with a patch that
collides with no document and whose `membershipStatus` is outside the enum,
the answer is 400. -/
theorem updateMember_absent_not_always_404 :
    findById 3 [alice, bob] = none ∧
    (updateMember [] (.oid 3) aliceEdit mar1 [alice, bob]).1.status = 409 ∧
    (updateMember [] (.oid 3) erinEdit mar1 [alice, bob]).1.status = 400 := by
  decide

/-! ## Renewal -/

theorem durationDays_valid (table : List (String × Nat))
    (ht : table = [("trial", 7), ("basic", 30), ("premium", 90), ("elite", 365)])
    (pt : String) (h : pt ∈ packageTypes) :
    durationDays table (some pt) = some (durationDaysSpec (some pt)) := by
  subst ht
  simp only [packageTypes, List.mem_cons, List.mem_singleton, List.not_mem_nil, or_false] at h
  rcases h with rfl | rfl | rfl | rfl <;> decide

theorem renewMembership_ok (id : ReqId) (b : RenewBody) (now : Timestamp) (store : Store)
    (h : (renewMembership id b now store).1.status = 200) :
    ∃ n old pt, id = .oid n ∧ findById n store = some old ∧ b.packageType = some pt ∧
      pt ∈ packageTypes ∧
      renewMembership id b now store =
        ({ status := 200, success := true,
           message := some (.text "Membership renewed successfully"),
           data := some (.member
             { old with
               packageType := pt
               expiryDate := max old.expiryDate now +
                 (durationDaysSpec (some pt) : Int) * 86400000
               membershipStatus := "active"
               paymentHistory := old.paymentHistory ++
                 [{ amount := b.paymentAmount, date := now, paymentMethod := b.paymentMethod,
                    transactionId := b.transactionId }]
               updatedAt := now }) },
         replaceFirst (fun m => m._id == n) (fun _ =>
             { old with
               packageType := pt
               expiryDate := max old.expiryDate now +
                 (durationDaysSpec (some pt) : Int) * 86400000
               membershipStatus := "active"
               paymentHistory := old.paymentHistory ++
                 [{ amount := b.paymentAmount, date := now, paymentMethod := b.paymentMethod,
                    transactionId := b.transactionId }]
               updatedAt := now }) store) := by
  unfold renewMembership renewMembershipTry at h ⊢
  cases id with
  | malformed raw => simp [handleError, updateMemberCatch, addMemberCatch] at h
  | oid n =>
    cases hf : findById n store with
    | none => simp [hf, failure] at h
    | some old =>
      simp only [hf] at h ⊢
      cases hpt : b.packageType with
      | none =>
        have : renewAssign now b old = none := by
          simp only [renewAssign, hpt]
          split <;> simp_all
        simp [this, handleError, updateMemberCatch, addMemberCatch] at h
      | some pt =>
        by_cases hv : pt ∈ packageTypes
        · have hd := durationDays_valid renewPackageDurations rfl pt hv
          have hmax : (if old.expiryDate > now then old.expiryDate else now) =
              max old.expiryDate now := by
            rcases lt_or_le now old.expiryDate with hlt | hle
            · rw [if_pos hlt, max_eq_left (le_of_lt hlt)]
            · rw [if_neg (not_lt.mpr hle), max_eq_right hle]
          have ha : renewAssign now b old = some
              { old with
                packageType := pt
                expiryDate := max old.expiryDate now +
                  (durationDaysSpec (some pt) : Int) * 86400000
                membershipStatus := "active"
                paymentHistory := old.paymentHistory ++
                  [{ amount := b.paymentAmount, date := now, paymentMethod := b.paymentMethod,
                     transactionId := b.transactionId }] } := by
            simp only [renewAssign, hpt, hd, hmax, addDays, msPerDay]
            norm_num
          simp only [ha] at h ⊢
          split_ifs at h ⊢ with hval
          · simp [handleError, updateMemberCatch, addMemberCatch] at h
          · refine ⟨n, old, pt, rfl, hf, rfl, hv, ?_⟩
            have hfuture : ¬ (max old.expiryDate now +
                (durationDaysSpec (some pt) : Int) * 86400000 < now) := by
              have h1 : now ≤ max old.expiryDate now := le_max_right _ _
              have h2 : (0 : Int) ≤ (durationDaysSpec (some pt) : Int) * 86400000 := by positivity
              intro hlt
              linarith
            simp [preSave, hfuture]
        · have : ∀ doc, renewAssign now b old = some doc → validateDoc doc = false := by
            intro doc hdoc
            simp only [renewAssign, hpt] at hdoc
            split at hdoc
            · simp only [Option.some.injEq] at hdoc
              subst hdoc
              rename_i hs
              cases hs
              simp [validateDoc, validPackageType, hv]
            · simp at hdoc
          cases hra : renewAssign now b old with
          | none => simp [hra, handleError, updateMemberCatch, addMemberCatch] at h
          | some doc => simp [hra, this doc hra, handleError, updateMemberCatch, addMemberCatch] at h

theorem renewMembership_split (n : Nat) (b : RenewBody) (now : Timestamp) (store : Store)
    (h : (renewMembership (.oid n) b now store).1.status = 200) :
    ∃ l1 old l2 pt, store = l1 ++ old :: l2 ∧ (∀ x ∈ l1, x._id ≠ n) ∧ old._id = n ∧
      b.packageType = some pt ∧ pt ∈ packageTypes ∧
      renewMembership (.oid n) b now store =
        ({ status := 200, success := true,
           message := some (.text "Membership renewed successfully"),
           data := some (.member (renewSpec now b pt old)) },
         l1 ++ renewSpec now b pt old :: l2) := by
  obtain ⟨n2, old, pt, hid, hf, hpt, hv, he⟩ := renewMembership_ok (.oid n) b now store h
  cases hid
  obtain ⟨l1, l2, hl, h1, h2⟩ := findById_split n store old hf
  refine ⟨l1, old, l2, pt, hl, h1, h2, hpt, hv, ?_⟩
  rw [he]
  refine Prod.ext rfl ?_
  show replaceFirst _ _ store = _
  rw [hl]
  exact replaceFirst_split _ _ old l2 l1 (fun x hx => by simpa using h1 x hx) (by simpa using h2)

/-- C1: a successful `renewMembership` with a tier of the enum stores the
target document with the expiry `max(oldExpiry, now)` plus the duration of the
tier in days. -/
theorem renewMembership_expiry (n : Nat) (b : RenewBody) (now : Timestamp) (store : Store)
    (h : (renewMembership (.oid n) b now store).1.status = 200) :
    ∃ l1 old l2 new pt, store = l1 ++ old :: l2 ∧ (∀ x ∈ l1, x._id ≠ n) ∧ old._id = n ∧
      (renewMembership (.oid n) b now store).2 = l1 ++ new :: l2 ∧
      (renewMembership (.oid n) b now store).1.data = some (.member new) ∧
      b.packageType = some pt ∧ pt ∈ packageTypes ∧
      new.expiryDate =
        max old.expiryDate now + (durationDaysSpec (some pt) : Int) * 86400000 := by
  obtain ⟨l1, old, l2, pt, hl, h1, h2, hpt, hv, he⟩ := renewMembership_split n b now store h
  exact ⟨l1, old, l2, renewSpec now b pt old, pt, hl, h1, h2, by rw [he], by rw [he],
    hpt, hv, rfl⟩

/-- Witness of C1: `carol`, whose expiry is 2024-01-01, renewed on 2024-03-01
with the basic package, has the expiry 2024-03-31. -/
theorem renewMembership_expiry_witness :
    (renewMembership (.oid 3) renewBasic mar1 [carol]).1.status = 200 ∧
    (renewMembership (.oid 3) renewBasic mar1 [carol]).2.map (fun m => m.expiryDate) =
      [1711843200000] ∧
    ∃ l1 old l2 new pt, [carol] = l1 ++ old :: l2 ∧ (∀ x ∈ l1, x._id ≠ 3) ∧ old._id = 3 ∧
      (renewMembership (.oid 3) renewBasic mar1 [carol]).2 = l1 ++ new :: l2 ∧
      (renewMembership (.oid 3) renewBasic mar1 [carol]).1.data = some (.member new) ∧
      renewBasic.packageType = some pt ∧ pt ∈ packageTypes ∧
      new.expiryDate =
        max old.expiryDate mar1 + (durationDaysSpec (some pt) : Int) * 86400000 :=
  ⟨by decide, by decide, renewMembership_expiry 3 renewBasic mar1 [carol] (by decide)⟩

/-- C2: after a successful `renewMembership` the stored document has the
status `active`, whatever the status and the expiry were before: the
`pre('save')` middleware leaves the renewed document as it is. -/
theorem renewMembership_activates (n : Nat) (b : RenewBody) (now : Timestamp) (store : Store)
    (h : (renewMembership (.oid n) b now store).1.status = 200) :
    ∃ l1 old l2 new, store = l1 ++ old :: l2 ∧ (∀ x ∈ l1, x._id ≠ n) ∧ old._id = n ∧
      (renewMembership (.oid n) b now store).2 = l1 ++ new :: l2 ∧
      (renewMembership (.oid n) b now store).1.data = some (.member new) ∧
      new.membershipStatus = "active" ∧ preSave now new = new := by
  obtain ⟨l1, old, l2, pt, hl, h1, h2, hpt, hv, he⟩ := renewMembership_split n b now store h
  refine ⟨l1, old, l2, renewSpec now b pt old, hl, h1, h2, by rw [he], by rw [he], rfl, ?_⟩
  have hfuture : ¬ ((renewSpec now b pt old).expiryDate < now) := by
    have h1 : now ≤ max old.expiryDate now := le_max_right _ _
    have h2 : (0 : Int) ≤ (durationDaysSpec (some pt) : Int) * 86400000 := by positivity
    intro hlt
    have : max old.expiryDate now + (durationDaysSpec (some pt) : Int) * 86400000 < now := hlt
    linarith
  simp [preSave, hfuture]

/-- Witness of C2: `carol`, stored as `expired`, is `active` after her renewal;
`bob`, stored as `suspended`, is `active` after his. -/
theorem renewMembership_activates_witness :
    (renewMembership (.oid 3) renewBasic mar1 [bob, carol]).1.status = 200 ∧
    (renewMembership (.oid 3) renewBasic mar1 [bob, carol]).2.map
      (fun m => m.membershipStatus) = ["suspended", "active"] ∧
    (renewMembership (.oid 2) renewBasic mar1 [bob, carol]).2.map
      (fun m => m.membershipStatus) = ["active", "expired"] ∧
    ∃ l1 old l2 new, [bob, carol] = l1 ++ old :: l2 ∧ (∀ x ∈ l1, x._id ≠ 3) ∧ old._id = 3 ∧
      (renewMembership (.oid 3) renewBasic mar1 [bob, carol]).2 = l1 ++ new :: l2 ∧
      (renewMembership (.oid 3) renewBasic mar1 [bob, carol]).1.data = some (.member new) ∧
      new.membershipStatus = "active" ∧ preSave mar1 new = new :=
  ⟨by decide, by decide, by decide,
    renewMembership_activates 3 renewBasic mar1 [bob, carol] (by decide)⟩

/-- C3: a successful `renewMembership` stores the old `paymentHistory`
followed by one new entry with the amount, method and transaction id of the
request and the date `now`. -/
theorem renewMembership_payment (n : Nat) (b : RenewBody) (now : Timestamp) (store : Store)
    (h : (renewMembership (.oid n) b now store).1.status = 200) :
    ∃ l1 old l2 new, store = l1 ++ old :: l2 ∧ (∀ x ∈ l1, x._id ≠ n) ∧ old._id = n ∧
      (renewMembership (.oid n) b now store).2 = l1 ++ new :: l2 ∧
      (renewMembership (.oid n) b now store).1.data = some (.member new) ∧
      new.paymentHistory = old.paymentHistory ++
        [{ amount := b.paymentAmount, date := now, paymentMethod := b.paymentMethod,
           transactionId := b.transactionId }] ∧
      new.paymentHistory.length = old.paymentHistory.length + 1 ∧
      ∀ i (hi : i < old.paymentHistory.length),
        new.paymentHistory[i]? = some (old.paymentHistory.get ⟨i, hi⟩) := by
  obtain ⟨l1, old, l2, pt, hl, h1, h2, hpt, hv, he⟩ := renewMembership_split n b now store h
  refine ⟨l1, old, l2, renewSpec now b pt old, hl, h1, h2, by rw [he], by rw [he], rfl, ?_, ?_⟩
  · simp [renewSpec]
  · intro i hi
    simp [renewSpec, List.getElem?_append_left hi, List.getElem?_eq_getElem hi]

/-- Witness of C3: the renewal of `carolPaid`, whose history holds one
payment, keeps that payment first and appends one entry. -/
theorem renewMembership_payment_witness :
    (renewMembership (.oid 3) renewBasic mar1 [carolPaid]).1.status = 200 ∧
    carolPaid.paymentHistory.length = 1 ∧
    ∃ l1 old l2 new, [carolPaid] = l1 ++ old :: l2 ∧ (∀ x ∈ l1, x._id ≠ 3) ∧ old._id = 3 ∧
      (renewMembership (.oid 3) renewBasic mar1 [carolPaid]).2 = l1 ++ new :: l2 ∧
      (renewMembership (.oid 3) renewBasic mar1 [carolPaid]).1.data = some (.member new) ∧
      new.paymentHistory = old.paymentHistory ++
        [{ amount := renewBasic.paymentAmount, date := mar1,
           paymentMethod := renewBasic.paymentMethod,
           transactionId := renewBasic.transactionId }] ∧
      new.paymentHistory.length = old.paymentHistory.length + 1 ∧
      ∀ i (hi : i < old.paymentHistory.length),
        new.paymentHistory[i]? = some (old.paymentHistory.get ⟨i, hi⟩) :=
  ⟨by decide, by decide,
    renewMembership_payment 3 renewBasic mar1 [carolPaid] (by decide)⟩

/-! ## Creation -/

theorem castNew_fields (freshId : Nat) (now expiry : Timestamp) (actor : Nat) (b : Body)
    (doc : Member) (h : castNew freshId now expiry actor b = some doc) :
    doc._id = freshId ∧ doc.expiryDate = expiry ∧ doc.createdBy = some actor ∧
    doc.joinDate = b.joinDate.getD now ∧
    doc.membershipStatus = b.membershipStatus.getD "active" ∧
    doc.packageType = b.packageType.getD "basic" ∧
    (∃ e, b.email = some e ∧ doc.email = normEmail e) ∧
    (∃ p, b.phone = some p ∧ doc.phone = trim p) := by
  unfold castNew at h
  split at h
  · rename_i fullName email phone address h1 h2 h3 h4
    simp only [Option.some.injEq] at h
    subst h
    exact ⟨rfl, rfl, rfl, rfl, rfl, rfl, ⟨email, h2, rfl⟩, ⟨phone, h3, rfl⟩⟩
  · simp at h

theorem addMember_ok (ve : List String) (actor freshId : Nat) (b : Body) (now : Timestamp)
    (store : Store) (h : (addMember ve actor freshId b now store).1.status = 201) :
    ∃ doc, ve = [] ∧ (store.find? (addConflict b)).isSome = false ∧
      castNew freshId now (now + (durationDaysSpec b.packageType : Int) * 86400000) actor b =
        some doc ∧
      validateDoc doc = true ∧
      addMember ve actor freshId b now store =
        ({ status := 201, success := true, message := some (.text "Member added successfully"),
           data := some (.member doc) }, store ++ [doc]) := by
  unfold addMember addMemberInterleaved addMemberTry at h ⊢
  by_cases hve : ve = []
  swap
  · simp [hve, failure] at h
  subst hve
  simp only [ne_eq, not_true_eq_false, if_false] at h ⊢
  by_cases hc : (store.find? (addConflict b)).isSome = true
  · simp [hc, failure] at h
  simp only [hc, if_false] at h ⊢
  cases hd : durationDays addPackageDurations b.packageType with
  | none => simp [hd, handleError, updateMemberCatch, addMemberCatch] at h
  | some days =>
    simp only [hd] at h ⊢
    cases hn : castNew freshId now (addDays now days) actor b with
    | none => simp [hn, handleError, updateMemberCatch, addMemberCatch] at h
    | some doc =>
      simp only [hn] at h ⊢
      by_cases hval : validateDoc doc = true
      swap
      · simp [hval, handleError, updateMemberCatch, addMemberCatch] at h
      obtain ⟨_, hexp, _, _, _, hpt, _, _⟩ := castNew_fields _ _ _ _ _ _ hn
      have hdays : days = durationDaysSpec b.packageType := by
        cases hb : b.packageType with
        | none =>
          rw [hb] at hd
          simp only [durationDays, Option.some.injEq] at hd
          rw [← hd]; rfl
        | some pt =>
          rw [hb] at hd hpt
          have hv : pt ∈ packageTypes := by
            have : validPackageType doc.packageType = true := by
              simp only [validateDoc, Bool.and_eq_true] at hval
              exact hval.1.2
            rw [hpt] at this
            simp only [validPackageType, Bool.and_eq_true, decide_eq_true_eq] at this
            simpa using this.2
          rw [durationDays_valid addPackageDurations rfl pt hv] at hd
          exact (Option.some.inj hd).symm
      have hpre : preSave now doc = doc := by
        have : ¬ (doc.expiryDate < now) := by
          rw [hexp]
          have h2 : (0 : Int) ≤ (days : Int) * msPerDay := by
            have := msPerDay_pos
            positivity
          intro hlt
          have : now + (days : Int) * msPerDay < now := hlt
          linarith
        simp [preSave, this]
      simp only [hval, hpre, Bool.not_true] at h ⊢
      by_cases het : emailTaken store none doc.email = true
      · simp [het, handleError, updateMemberCatch, addMemberCatch] at h
      · have hn2 : castNew freshId now
            (now + (durationDaysSpec b.packageType : Int) * 86400000) actor b = some doc := by
          rw [← hdays, ← hn]
          simp [addDays, msPerDay]
        refine ⟨doc, trivial, by simp [hc], hn2, hval, ?_⟩
        simp [het]

theorem addConflict_iff (b : Body) (store : Store) :
    (store.find? (addConflict b)).isSome = true ↔
      ∃ m ∈ store, (∃ e, b.email = some e ∧ m.email = normEmail e) ∨
        (∃ p, b.phone = some p ∧ m.phone = trim p) := by
  rw [List.find?_isSome]
  constructor
  · rintro ⟨m, hm, hq⟩
    refine ⟨m, hm, ?_⟩
    unfold addConflict at hq
    rcases hbe : b.email with _ | e <;> rcases hbp : b.phone with _ | p <;>
      simp [hbe, hbp] at hq ⊢ <;> tauto
  · rintro ⟨m, hm, hor⟩
    refine ⟨m, hm, ?_⟩
    unfold addConflict
    rcases hor with ⟨e, he, hme⟩ | ⟨p, hp, hmp⟩
    · simp [he, hme]
    · simp [hp, hmp]

theorem addMember_409 (actor freshId : Nat) (b : Body) (now : Timestamp) (store : Store) :
    ((addMember [] actor freshId b now store).1.status = 409 ↔
      (store.find? (addConflict b)).isSome = true) ∧
    ((store.find? (addConflict b)).isSome = true →
      addMember [] actor freshId b now store =
        (failure 409 "Member with this email or phone already exists", store)) := by
  unfold addMember addMemberInterleaved addMemberTry
  by_cases hc : (store.find? (addConflict b)).isSome = true
  · simp [hc, failure]
  · simp only [ne_eq, not_true_eq_false, if_false, hc, false_implies, and_true, iff_false]
    cases hd : durationDays addPackageDurations b.packageType with
    | none => simp [handleError, updateMemberCatch, addMemberCatch]
    | some days =>
      cases hn : castNew freshId now (addDays now days) actor b with
      | none => simp [hn, handleError, updateMemberCatch, addMemberCatch]
      | some doc =>
        by_cases hval : validateDoc doc = true
        · by_cases het : emailTaken store none (preSave now doc).email = true
          · simp [hn, hval, het, handleError, updateMemberCatch, addMemberCatch]
          · simp [hn, hval, het]
        · simp [hn, hval, handleError, updateMemberCatch, addMemberCatch]

/-- C4: for a request without validation errors, `addMember` answers 409
exactly when some stored document has the email of the input or the phone of
the input (compared as the setters of the two paths store them, which for an
input that is already trimmed and lower-cased is plain equality); it then
inserts nothing and leaves the collection as it was. -/
theorem addMember_duplicate_iff (actor freshId : Nat) (b : Body) (now : Timestamp)
    (store : Store) :
    ((addMember [] actor freshId b now store).1.status = 409 ↔
      ∃ m ∈ store, (∃ e, b.email = some e ∧ m.email = normEmail e) ∨
        (∃ p, b.phone = some p ∧ m.phone = trim p)) ∧
    ((addMember [] actor freshId b now store).1.status = 409 →
      addMember [] actor freshId b now store =
        (failure 409 "Member with this email or phone already exists", store)) ∧
    ((∀ e, b.email = some e → normEmail e = e) → (∀ p, b.phone = some p → trim p = p) →
      ((addMember [] actor freshId b now store).1.status = 409 ↔
        ∃ m ∈ store, b.email = some m.email ∨ b.phone = some m.phone)) := by
  obtain ⟨h1, h2⟩ := addMember_409 actor freshId b now store
  have h3 := addConflict_iff b store
  refine ⟨h1.trans h3, fun h => h2 (h1.mp h), ?_⟩
  intro he hp
  rw [h1, h3]
  constructor
  · rintro ⟨m, hm, ⟨e, hbe, hme⟩ | ⟨p, hbp, hmp⟩⟩
    · exact ⟨m, hm, Or.inl (by rw [hbe, hme, he e hbe])⟩
    · exact ⟨m, hm, Or.inr (by rw [hbp, hmp, hp p hbp])⟩
  · rintro ⟨m, hm, hbe | hbp⟩
    · exact ⟨m, hm, Or.inl ⟨m.email, hbe, (he _ hbe).symm⟩⟩
    · exact ⟨m, hm, Or.inr ⟨m.phone, hbp, (hp _ hbp).symm⟩⟩

/-- C7: the document created by a successful `addMember` has the expiry
`now` plus the duration of the package of the input in days, and `createdBy`
is the id of the actor, whatever `expiryDate` and `createdBy` the body
carries. -/
theorem addMember_expiry_createdBy (ve : List String) (actor freshId : Nat) (b : Body)
    (now : Timestamp) (store : Store)
    (h : (addMember ve actor freshId b now store).1.status = 201) :
    ∃ new, (addMember ve actor freshId b now store).2 = store ++ [new] ∧
      (addMember ve actor freshId b now store).1.data = some (.member new) ∧
      new.expiryDate = now + (durationDaysSpec b.packageType : Int) * 86400000 ∧
      new.createdBy = some actor := by
  obtain ⟨doc, _, _, hn, _, he⟩ := addMember_ok ve actor freshId b now store h
  obtain ⟨_, hexp, hby, _⟩ := castNew_fields _ _ _ _ _ _ hn
  exact ⟨doc, by rw [he], by rw [he], hexp, hby⟩

/-- Witness of C7: a trial member created on 2024-01-01 by the actor 7, from a
body that carries the `expiryDate` 0 and the `createdBy` 99, has the expiry
2024-01-08 and `createdBy` 7. -/
theorem addMember_expiry_createdBy_witness :
    (addMember [] 7 4 daveBody jan1 [alice]).1.status = 201 ∧
    (addMember [] 7 4 daveBody jan1 [alice]).2.map (fun m => (m.expiryDate, m.createdBy)) =
      [(1706659200000, some 7), (1704672000000, some 7)] ∧
    ∃ new, (addMember [] 7 4 daveBody jan1 [alice]).2 = [alice] ++ [new] ∧
      (addMember [] 7 4 daveBody jan1 [alice]).1.data = some (.member new) ∧
      new.expiryDate = jan1 + (durationDaysSpec daveBody.packageType : Int) * 86400000 ∧
      new.createdBy = some 7 :=
  ⟨by decide, by decide, addMember_expiry_createdBy [] 7 4 daveBody jan1 [alice] (by decide)⟩

/-- C8, as amended: the document created by a successful `addMember` has the
`joinDate` of the body when the body carries one, and `now` otherwise. -/
theorem addMember_joinDate (ve : List String) (actor freshId : Nat) (b : Body)
    (now : Timestamp) (store : Store)
    (h : (addMember ve actor freshId b now store).1.status = 201) :
    ∃ new, (addMember ve actor freshId b now store).2 = store ++ [new] ∧
      (addMember ve actor freshId b now store).1.data = some (.member new) ∧
      patched b.joinDate now new.joinDate := by
  obtain ⟨doc, _, _, hn, _, he⟩ := addMember_ok ve actor freshId b now store h
  obtain ⟨_, _, _, hj, _⟩ := castNew_fields _ _ _ _ _ _ hn
  refine ⟨doc, by rw [he], by rw [he], ?_⟩
  cases hb : b.joinDate <;> simp [patched, hj, hb]

/-- Witness of C8: the creation from `daveBody`, which carries a `joinDate`. -/
theorem addMember_joinDate_witness :
    (addMember [] 7 4 daveBody jan1 [alice]).1.status = 201 ∧
    ∃ new, (addMember [] 7 4 daveBody jan1 [alice]).2 = [alice] ++ [new] ∧
      (addMember [] 7 4 daveBody jan1 [alice]).1.data = some (.member new) ∧
      patched daveBody.joinDate jan1 new.joinDate :=
  ⟨by decide, addMember_joinDate [] 7 4 daveBody jan1 [alice] (by decide)⟩

/-- Counterexample to C8 as stated: `daveBody` carries the `joinDate`
2023-01-01, the creation on 2024-01-01 succeeds, and the stored `joinDate` is
2023-01-01, not the instant of the creation. -/
theorem addMember_joinDate_from_body :
    (addMember [] 7 4 daveBody jan1 [alice]).1.status = 201 ∧
    (addMember [] 7 4 daveBody jan1 [alice]).2.map (fun m => m.joinDate) =
      [jan1, 1672531200000] ∧
    (1672531200000 : Timestamp) ≠ jan1 := by
  decide

/-- The lookup of the two controllers against the table of the specification:
the tables are equal, and the lookup gives what `durationDaysSpec` gives for
every value that is not a key inherited from `Object.prototype`. -/
theorem durationDays_table (packageType : Option String) :
    durationDays addPackageDurations packageType =
      durationDays renewPackageDurations packageType ∧
    durationDays addPackageDurations (some "trial") = some 7 ∧
    durationDays addPackageDurations (some "basic") = some 30 ∧
    durationDays addPackageDurations (some "premium") = some 90 ∧
    durationDays addPackageDurations (some "elite") = some 365 ∧
    durationDays addPackageDurations none = some 30 ∧
    durationDays addPackageDurations packageType =
      (if ∃ k ∈ objectPrototypeKeys, packageType = some k then none
       else some (durationDaysSpec packageType)) := by
  refine ⟨rfl, by decide, by decide, by decide, by decide, by decide, ?_⟩
  cases packageType with
  | none => simp [durationDays, durationDaysSpec]
  | some k =>
    by_cases h1 : k = "trial"
    · subst h1; decide
    by_cases h2 : k = "basic"
    · subst h2; decide
    by_cases h3 : k = "premium"
    · subst h3; decide
    by_cases h4 : k = "elite"
    · subst h4; decide
    have hl : addPackageDurations.lookup k = none := by
      have e1 : (k == "trial") = false := by simpa using h1
      have e2 : (k == "basic") = false := by simpa using h2
      have e3 : (k == "premium") = false := by simpa using h3
      have e4 : (k == "elite") = false := by simpa using h4
      simp only [addPackageDurations, List.lookup, e1, e2, e3, e4]
    have hs : durationDaysSpec (some k) = 30 := by
      unfold durationDaysSpec
      split <;> simp_all
    by_cases hk : k ∈ objectPrototypeKeys
    · simp [durationDays, hl, hk]
    · simp [durationDays, hl, hk, hs]

/-- C9, the code at the failing input: for the value `constructor`, which is
neither a tier nor missing, the table of the specification gives 30, and the
lookup `packageDurations[packageType] || 30` of both controllers gives no
number; the renewal that receives it computes no expiry date. -/
theorem durationDays_constructor :
    durationDaysSpec (some "constructor") = 30 ∧
    durationDays addPackageDurations (some "constructor") = none ∧
    durationDays renewPackageDurations (some "constructor") = none ∧
    renewAssign mar1 { renewBasic with packageType := some "constructor" } carol = none := by
  decide

/-! ## Uniqueness of email and phone -/

theorem updateMember_409 (n : Nat) (b : Body) (now : Timestamp) (store : Store) :
    ((updateMember [] (.oid n) b now store).1.status = 409 ↔
      ((truthy b.email || truthy b.phone) &&
        (store.find? (conflictQuery b n)).isSome) = true) ∧
    (((truthy b.email || truthy b.phone) &&
        (store.find? (conflictQuery b n)).isSome) = true →
      updateMember [] (.oid n) b now store =
        (failure 409 "Email or phone already in use by another member", store)) := by
  unfold updateMember updateMemberInterleaved updateMemberTry
  by_cases hc : ((truthy b.email || truthy b.phone) &&
      (store.find? (conflictQuery b n)).isSome) = true
  · simp [hc, failure]
  · simp only [ne_eq, not_true_eq_false, if_false, hc, false_implies, and_true, iff_false]
    by_cases hv : updateValidators b = true
    · cases hf : findById n store with
      | none => simp [hv, hf, failure]
      | some old =>
        by_cases hd : (b.email.isSome && emailTaken store (some n) (applySet now b old).email) = true
        · simp only [hv, hf, hd, Bool.not_true, if_true]
          simp [handleError, updateMemberCatch, addMemberCatch]
        · simp only [hv, hf, hd, Bool.not_true]
          simp
    · simp [hv, handleError, updateMemberCatch, addMemberCatch]

/-- C10: `updateMember` answers 409 exactly when a stored document with
another id has the (non-empty) email of the patch or the (non-empty) phone of
the patch, compared as the setters of the two paths store them, which for a
patch that is already trimmed and lower-cased is plain equality; the
collection is then left as it was.  The target document is not compared with
the patch, so a patch that repeats its email and phone is no conflict. -/
theorem updateMember_duplicate_iff (n : Nat) (b : Body) (now : Timestamp) (store : Store) :
    ((updateMember [] (.oid n) b now store).1.status = 409 ↔
      ∃ m ∈ store, m._id ≠ n ∧
        ((∃ e, b.email = some e ∧ e ≠ "" ∧ m.email = normEmail e) ∨
         (∃ p, b.phone = some p ∧ p ≠ "" ∧ m.phone = trim p))) ∧
    ((updateMember [] (.oid n) b now store).1.status = 409 →
      updateMember [] (.oid n) b now store =
        (failure 409 "Email or phone already in use by another member", store)) ∧
    ((∀ e, b.email = some e → e ≠ "" ∧ normEmail e = e) →
      (∀ p, b.phone = some p → p ≠ "" ∧ trim p = p) →
      ((updateMember [] (.oid n) b now store).1.status = 409 ↔
        ∃ m ∈ store, m._id ≠ n ∧ (b.email = some m.email ∨ b.phone = some m.phone))) := by
  obtain ⟨h1, h2⟩ := updateMember_409 n b now store
  have h3 := conflict_iff b n store
  refine ⟨h1.trans h3, fun h => h2 (h1.mp h), ?_⟩
  intro he hp
  rw [h1, h3]
  constructor
  · rintro ⟨m, hm, hid, ⟨e, hbe, _, hme⟩ | ⟨p, hbp, _, hmp⟩⟩
    · exact ⟨m, hm, hid, Or.inl (by rw [hbe, hme, (he e hbe).2])⟩
    · exact ⟨m, hm, hid, Or.inr (by rw [hbp, hmp, (hp p hbp).2])⟩
  · rintro ⟨m, hm, hid, hbe | hbp⟩
    · exact ⟨m, hm, hid, Or.inl ⟨m.email, hbe, (he _ hbe).1, (he _ hbe).2.symm⟩⟩
    · exact ⟨m, hm, hid, Or.inr ⟨m.phone, hbp, (hp _ hbp).1, (hp _ hbp).2.symm⟩⟩

theorem lowercase_eq_empty (s : String) (h : lowercase s = "") : s = "" := by
  have h1 : (lowercase s).data = [] := by rw [h]
  simp only [lowercase, List.map_eq_nil_iff] at h1
  cases s
  simp_all

theorem duplicate_of_stored_form (a : Member) (store : Store) (e : String)
    (b : Body) (actor freshId : Nat) (now : Timestamp)
    (ha : a ∈ store) (hstored : normEmail a.email = a.email) (hne : a.email ≠ "")
    (hcase : lowercase e = lowercase a.email) :
    addMember [] actor freshId { b with email := some e } now store =
      (failure 409 "Member with this email or phone already exists", store) ∧
    ∀ n, n ≠ a._id →
      updateMember [] (.oid n) { b with email := some e } now store =
        (failure 409 "Email or phone already in use by another member", store) := by
  have hnorm : normEmail e = a.email := by
    unfold normEmail at hstored ⊢
    rw [hcase, hstored]
  have he : e ≠ "" := by
    intro h0
    subst h0
    have : lowercase a.email = "" := by rw [← hcase]; rfl
    exact hne (lowercase_eq_empty _ this)
  constructor
  · apply (addMember_409 actor freshId _ now store).2
    rw [addConflict_iff]
    exact ⟨a, ha, Or.inl ⟨e, rfl, hnorm.symm⟩⟩
  · intro n hn
    apply (updateMember_409 n _ now store).2
    rw [conflict_iff]
    exact ⟨a, ha, fun h => hn h.symm, Or.inl ⟨e, rfl, he, hnorm.symm⟩⟩

theorem nodup_map_replace {β : Type} (f : Member → β) (l1 l2 : List Member)
    (old new : Member) (h : ((l1 ++ old :: l2).map f).Nodup)
    (hnew : f new = f old ∨ ∀ m ∈ l1 ++ l2, f m ≠ f new) :
    ((l1 ++ new :: l2).map f).Nodup := by
  simp only [List.map_append, List.map_cons, List.nodup_middle, List.nodup_cons] at h ⊢
  refine ⟨?_, h.2⟩
  rcases hnew with he | hne
  · rw [he]; exact h.1
  · intro hmem
    rw [← List.map_append, List.mem_map] at hmem
    obtain ⟨m, hm, hfm⟩ := hmem
    exact hne m hm hfm

theorem ids_ne_of_nodup (n : Nat) (l1 l2 : List Member) (old : Member) (hold : old._id = n)
    (h : ((l1 ++ old :: l2).map fun m => m._id).Nodup) :
    ∀ m ∈ l1 ++ l2, m._id ≠ n := by
  simp only [List.map_append, List.map_cons, List.nodup_middle, List.nodup_cons] at h
  intro m hm hid
  apply h.1
  rw [← List.map_append, List.mem_map]
  exact ⟨m, hm, by rw [hid, hold]⟩

theorem updateMember_unchanged (ve : List String) (id : ReqId) (b : Body) (now : Timestamp)
    (store : Store) (h : (updateMember ve id b now store).1.status ≠ 200) :
    (updateMember ve id b now store).2 = store := by
  unfold updateMember updateMemberInterleaved updateMemberTry at h ⊢
  by_cases hve : ve = []
  swap
  · simp [hve]
  subst hve
  cases id with
  | malformed raw => rfl
  | oid n =>
    simp only [ne_eq, not_true_eq_false, if_false] at h ⊢
    split_ifs at h ⊢ with hc hv
    · rfl
    · rfl
    · cases hf : findById n store with
      | none => rfl
      | some old =>
        simp only [hf] at h ⊢
        split_ifs at h ⊢ with hd
        · rfl
        · exact absurd rfl h

theorem renewMembership_unchanged (id : ReqId) (b : RenewBody) (now : Timestamp)
    (store : Store) (h : (renewMembership id b now store).1.status ≠ 200) :
    (renewMembership id b now store).2 = store := by
  unfold renewMembership renewMembershipTry at h ⊢
  cases id with
  | malformed raw => rfl
  | oid n =>
    cases hf : findById n store with
    | none => simp [hf]
    | some old =>
      simp only [hf] at h ⊢
      cases hra : renewAssign now b old with
      | none => simp [hra]
      | some doc =>
        simp only [hra] at h ⊢
        split_ifs at h ⊢ with hval
        · rfl
        · exact absurd rfl h

theorem addMember_unchanged (ve : List String) (actor freshId : Nat) (b : Body)
    (now : Timestamp) (store : Store)
    (h : (addMember ve actor freshId b now store).1.status ≠ 201) :
    (addMember ve actor freshId b now store).2 = store := by
  unfold addMember addMemberInterleaved addMemberTry at h ⊢
  by_cases hve : ve = []
  swap
  · simp [hve]
  subst hve
  simp only [ne_eq, not_true_eq_false, if_false] at h ⊢
  split_ifs at h ⊢ with hc
  · rfl
  · cases hd : durationDays addPackageDurations b.packageType with
    | none => rfl
    | some days =>
      simp only [hd] at h ⊢
      cases hn : castNew freshId now (addDays now days) actor b with
      | none => rfl
      | some doc =>
        simp only [hn] at h ⊢
        split_ifs at h ⊢ with hval het
        · rfl
        · rfl
        · exact absurd rfl h

theorem nodup_map_snoc {β : Type} (f : Member → β) (l : List Member) (doc : Member)
    (h : (l.map f).Nodup) (hne : ∀ m ∈ l, f m ≠ f doc) : ((l ++ [doc]).map f).Nodup := by
  rw [List.map_append, List.nodup_append]
  refine ⟨h, by simp, ?_⟩
  intro x hx hx2
  simp only [List.map_cons, List.map_nil, List.mem_singleton] at hx2
  obtain ⟨m, hm, hfm⟩ := List.mem_map.mp hx
  exact hne m hm (hfm.trans hx2)

theorem normEmail_empty : normEmail "" = "" := by decide

theorem trim_empty : trim "" = "" := by decide

theorem step_unique (s : Store) (op : Op) (hf : op.fresh s)
    (hid : (s.map fun m => m._id).Nodup) (hem : (s.map fun m => m.email).Nodup)
    (hph : (s.map fun m => m.phone).Nodup) :
    ((op.run s).map fun m => m._id).Nodup ∧ ((op.run s).map fun m => m.email).Nodup ∧
      ((op.run s).map fun m => m.phone).Nodup := by
  cases op with
  | add ve actor freshId b now =>
    simp only [Op.run]
    by_cases h : (addMember ve actor freshId b now s).1.status = 201
    · obtain ⟨doc, _, hnc, hn, _, he⟩ := addMember_ok ve actor freshId b now s h
      obtain ⟨hdid, _, _, _, _, _, ⟨e, hbe, hde⟩, ⟨p, hbp, hdp⟩⟩ := castNew_fields _ _ _ _ _ _ hn
      have hnone : ¬ ∃ m ∈ s, (∃ e, b.email = some e ∧ m.email = normEmail e) ∨
          (∃ p, b.phone = some p ∧ m.phone = trim p) := by
        rw [← addConflict_iff, hnc]
        simp
      rw [he]
      refine ⟨nodup_map_snoc _ s doc hid ?_, nodup_map_snoc _ s doc hem ?_,
        nodup_map_snoc _ s doc hph ?_⟩
      · intro m hm
        rw [hdid]
        exact hf m hm
      · intro m hm heq
        exact hnone ⟨m, hm, Or.inl ⟨e, hbe, heq.trans hde⟩⟩
      · intro m hm heq
        exact hnone ⟨m, hm, Or.inr ⟨p, hbp, heq.trans hdp⟩⟩
    · rw [addMember_unchanged ve actor freshId b now s h]
      exact ⟨hid, hem, hph⟩
  | update ve id b now =>
    simp only [Op.run]
    by_cases h : (updateMember ve id b now s).1.status = 200
    · obtain ⟨n, old, hidn, hfind, _, hval, hnc, he⟩ := updateMember_ok ve id b now s h
      obtain ⟨l1, l2, hl, h1, h2⟩ := findById_split n s old hfind
      have hstore : (updateMember ve id b now s).2 = l1 ++ applySet now b old :: l2 := by
        rw [he, hl]
        exact replaceFirst_split _ _ old l2 l1 (fun x hx => by simpa using h1 x hx)
          (by simpa using h2)
      rw [hstore]
      rw [hl] at hid hem hph
      have hothers := ids_ne_of_nodup n l1 l2 old h2 hid
      have hnone : ¬ ∃ m ∈ s, m._id ≠ n ∧
          ((∃ e, b.email = some e ∧ e ≠ "" ∧ m.email = normEmail e) ∨
           (∃ p, b.phone = some p ∧ p ≠ "" ∧ m.phone = trim p)) := by
        rw [← conflict_iff]
        exact hnc
      have hsub : ∀ m ∈ l1 ++ l2, m ∈ s := by
        intro m hm
        rw [hl]
        rcases List.mem_append.mp hm with hm | hm
        · exact List.mem_append_left _ hm
        · exact List.mem_append_right _ (List.mem_cons_of_mem _ hm)
      simp only [updateValidators, Bool.and_eq_true] at hval
      refine ⟨nodup_map_replace _ l1 l2 old _ hid (Or.inl rfl),
        nodup_map_replace _ l1 l2 old _ hem ?_, nodup_map_replace _ l1 l2 old _ hph ?_⟩
      · cases hbe : b.email with
        | none => left; simp [applySet, hbe]
        | some e =>
          right
          intro m hm heq
          have hve : validEmail (normEmail e) = true := by
            have := hval.1.1.1.1.2
            simpa [hbe] using this
          have hne : e ≠ "" := by
            intro h0
            subst h0
            rw [normEmail_empty] at hve
            exact absurd hve (by decide)
          apply hnone
          refine ⟨m, hsub m hm, hothers m hm, Or.inl ⟨e, hbe, hne, ?_⟩⟩
          simpa [applySet, hbe] using heq
      · cases hbp : b.phone with
        | none => left; simp [applySet, hbp]
        | some p =>
          right
          intro m hm heq
          have hvp : validPhone (trim p) = true := by
            have := hval.1.1.1.2
            simpa [hbp] using this
          have hne : p ≠ "" := by
            intro h0
            subst h0
            rw [trim_empty] at hvp
            exact absurd hvp (by decide)
          apply hnone
          refine ⟨m, hsub m hm, hothers m hm, Or.inr ⟨p, hbp, hne, ?_⟩⟩
          simpa [applySet, hbp] using heq
    · rw [updateMember_unchanged ve id b now s h]
      exact ⟨hid, hem, hph⟩
  | renew id b now =>
    simp only [Op.run]
    by_cases h : (renewMembership id b now s).1.status = 200
    · obtain ⟨n, old, pt, hidn, _, _, _, _⟩ := renewMembership_ok id b now s h
      subst hidn
      obtain ⟨l1, old, l2, pt, hl, _, _, _, _, he⟩ := renewMembership_split n b now s h
      rw [he]
      rw [hl] at hid hem hph
      exact ⟨nodup_map_replace _ l1 l2 old _ hid (Or.inl rfl),
        nodup_map_replace _ l1 l2 old _ hem (Or.inl rfl),
        nodup_map_replace _ l1 l2 old _ hph (Or.inl rfl)⟩
    · rw [renewMembership_unchanged id b now s h]
      exact ⟨hid, hem, hph⟩
  | remove id =>
    simp only [Op.run]
    have hsub : (deleteMember id s).2.Sublist s := by
      unfold deleteMember
      cases id with
      | malformed raw => exact List.Sublist.refl _
      | oid n =>
        cases hfind : findById n s with
        | none => simp [hfind]
        | some m =>
          simp only [hfind]
          exact List.eraseP_sublist _
    exact ⟨hid.sublist (hsub.map _), hem.sublist (hsub.map _), hph.sublist (hsub.map _)⟩

theorem reachable_nodup (s : Store) (h : Reachable s) :
    (s.map fun m => m._id).Nodup ∧ (s.map fun m => m.email).Nodup ∧
      (s.map fun m => m.phone).Nodup := by
  induction h with
  | empty => simp
  | step s op _ hf ih => exact step_unique s op hf ih.1 ih.2.1 ih.2.2

/-- C5: in every collection reachable from the empty one by calls of
`addMember`, `updateMember`, `renewMembership` and `deleteMember` executed one
at a time, successful or not, no two documents have the same email and no two
documents have the same phone. -/
theorem reachable_unique (s : Store) (h : Reachable s) :
    s.Pairwise (fun x y => x.email ≠ y.email) ∧ s.Pairwise (fun x y => x.phone ≠ y.phone) := by
  obtain ⟨_, hem, hph⟩ := reachable_nodup s h
  exact ⟨List.pairwise_map.mp hem, List.pairwise_map.mp hph⟩

/-- Witness of C5: `daveAndFrankLater` is reached by two creations, a creation
and an edit that repeat the email of a stored member, a renewal, and a creation
that repeats a stored phone; the three repeats are refused with 409, the
collection holds two members, and their emails and phones differ. -/
theorem reachable_unique_witness :
    Reachable daveAndFrankLater ∧
    daveAndFrankLater.length = 2 ∧
    (addMember [] 7 6 daveBody mar1 daveAndFrank).1.status = 409 ∧
    (updateMember [] (.oid 5) frankAsDave mar1 daveAndFrank).1.status = 409 ∧
    daveAndFrankLater.map (fun m => m.email) = ["dave@gym.com", "frank@gym.com"] ∧
    daveAndFrankLater.map (fun m => m.phone) = ["9876543213", "9876543215"] ∧
    daveAndFrankLater.Pairwise (fun x y => x.email ≠ y.email) ∧
    daveAndFrankLater.Pairwise (fun x y => x.phone ≠ y.phone) :=
  have hr : Reachable daveAndFrankLater :=
    Reachable.step _ _
      (Reachable.step _ _
        (Reachable.step _ _
          (Reachable.step _ _
            (Reachable.step _ _
              (Reachable.step _ _ Reachable.empty (by simp [Op.fresh]))
              (by unfold Op.fresh; decide))
            (by unfold Op.fresh; decide))
          trivial)
        trivial)
      (by unfold Op.fresh; decide)
  ⟨hr, by decide, by decide, by decide, by decide, by decide,
    reachable_unique daveAndFrankLater hr⟩

/-! ## Stored emails are in the form of the setters -/

theorem toLower_upper (c : Char) (h : 65 ≤ c.toNat ∧ c.toNat ≤ 90) :
    97 ≤ c.toLower.toNat ∧ c.toLower.toNat ≤ 122 := by
  have e : c.toLower = Char.ofNat (c.toNat + 32) := by
    simp only [Char.toLower, ge_iff_le, h, and_self, if_true]
  rw [e]
  obtain ⟨h1, h2⟩ := h
  generalize c.toNat = n at h1 h2
  interval_cases n <;> decide

theorem lowerChar_cases (c : Char) :
    (lowerChar c = c ∧ ¬ (65 ≤ c.toNat ∧ c.toNat ≤ 90) ∧ c.toNat ≠ 0x212A) ∨
    (97 ≤ (lowerChar c).toNat ∧ (lowerChar c).toNat ≤ 122 ∧
      ((65 ≤ c.toNat ∧ c.toNat ≤ 90) ∨ c.toNat = 0x212A)) := by
  unfold lowerChar
  by_cases hk : c.toNat = 0x212A
  · right
    rw [if_pos hk]
    exact ⟨by decide, by decide, Or.inr hk⟩
  · rw [if_neg hk]
    by_cases hu : 65 ≤ c.toNat ∧ c.toNat ≤ 90
    · right
      exact ⟨(toLower_upper c hu).1, (toLower_upper c hu).2, Or.inl hu⟩
    · left
      refine ⟨?_, hu, hk⟩
      simp only [Char.toLower, ge_iff_le, hu, if_false]

theorem lowerChar_idem (c : Char) : lowerChar (lowerChar c) = lowerChar c := by
  rcases lowerChar_cases c with ⟨h, _, _⟩ | ⟨h1, h2, _⟩
  · rw [h, h]
  · rcases lowerChar_cases (lowerChar c) with ⟨h, _, _⟩ | ⟨_, _, h3 | h3⟩
    · exact h
    · omega
    · omega

theorem jsWhitespace_lowerChar (c : Char) : jsWhitespace (lowerChar c) = jsWhitespace c := by
  rcases lowerChar_cases c with ⟨h, _, _⟩ | ⟨h1, h2, h3⟩
  · rw [h]
  · have e1 : jsWhitespace (lowerChar c) = false := by
      unfold jsWhitespace
      generalize (lowerChar c).toNat = n at h1 h2
      simp only [decide_eq_false_iff_not, List.mem_cons, List.mem_singleton, List.not_mem_nil, or_false]
      omega
    have e2 : jsWhitespace c = false := by
      unfold jsWhitespace
      generalize c.toNat = n at h3
      simp only [decide_eq_false_iff_not, List.mem_cons, List.mem_singleton, List.not_mem_nil, or_false]
      omega
    rw [e1, e2]

theorem dropWhile_map_lower (l : List Char) :
    (l.map lowerChar).dropWhile jsWhitespace = (l.dropWhile jsWhitespace).map lowerChar := by
  induction l with
  | nil => rfl
  | cons x t ih =>
    simp only [List.map_cons, List.dropWhile_cons, jsWhitespace_lowerChar]
    split
    · exact ih
    · simp

theorem dropWhile_fixed (p : Char → Bool) (l : List Char) (h : ∀ x, l.head? = some x → p x = false) :
    l.dropWhile p = l := by
  cases l with
  | nil => rfl
  | cons a t => simp [List.dropWhile_cons, h a rfl]

theorem head_dropWhile (p : Char → Bool) (l : List Char) :
    ∀ x, (l.dropWhile p).head? = some x → p x = false := by
  induction l with
  | nil => intro x h; simp at h
  | cons a t ih =>
    intro x h
    by_cases ha : p a = true
    · rw [List.dropWhile_cons_of_pos ha] at h
      exact ih x h
    · rw [List.dropWhile_cons_of_neg ha] at h
      simp only [List.head?_cons, Option.some.injEq] at h
      subst h
      simpa using ha

theorem head_reverse_dropWhile_reverse (p : Char → Bool) (l : List Char)
    (h : ∀ x, l.head? = some x → p x = false) :
    ∀ x, ((l.reverse.dropWhile p).reverse).head? = some x → p x = false := by
  intro x hx
  have hpre : (l.reverse.dropWhile p).reverse <+: l := by
    have := List.dropWhile_suffix p (l := l.reverse)
    have := List.reverse_prefix.mpr this
    simpa using this
  obtain ⟨t, ht⟩ := hpre
  cases hl : (l.reverse.dropWhile p).reverse with
  | nil => rw [hl] at hx; simp at hx
  | cons a r =>
    rw [hl] at hx ht
    simp only [List.head?_cons, Option.some.injEq] at hx
    subst hx
    apply h
    rw [← ht]
    rfl

theorem trimL_idem (l : List Char) : trimL (trimL l) = trimL l := by
  unfold trimL
  have h1 := head_dropWhile jsWhitespace l
  have h2 := head_reverse_dropWhile_reverse jsWhitespace _ h1
  rw [dropWhile_fixed _ _ h2, List.reverse_reverse]
  rw [dropWhile_fixed _ _ (head_dropWhile jsWhitespace _)]

theorem trimL_map_lower (l : List Char) :
    trimL (l.map lowerChar) = (trimL l).map lowerChar := by
  unfold trimL
  rw [dropWhile_map_lower, ← List.map_reverse, dropWhile_map_lower, List.map_reverse]

theorem normEmail_idem (s : String) : normEmail (normEmail s) = normEmail s := by
  have key : ∀ l : List Char,
      trimL ((trimL (l.map lowerChar)).map lowerChar) = trimL (l.map lowerChar) := by
    intro l
    have hi : ∀ t : List Char, (t.map lowerChar).map lowerChar = t.map lowerChar := by
      intro t
      simp [List.map_map, Function.comp_def, lowerChar_idem]
    rw [trimL_map_lower l, hi, trimL_map_lower, trimL_idem]
  show (⟨trimL ((⟨trimL (s.data.map lowerChar)⟩ : String).data.map lowerChar)⟩ : String) =
    ⟨trimL (s.data.map lowerChar)⟩
  rw [key]

theorem validEmail_ne_empty (s : String) (h : validEmail s = true) : s ≠ "" := by
  intro h0
  subst h0
  exact absurd h (by decide)

theorem step_stored_form (s : Store) (op : Op)
    (h : ∀ m ∈ s, normEmail m.email = m.email ∧ m.email ≠ "") :
    ∀ m ∈ op.run s, normEmail m.email = m.email ∧ m.email ≠ "" := by
  cases op with
  | add ve actor freshId b now =>
    simp only [Op.run]
    by_cases hs : (addMember ve actor freshId b now s).1.status = 201
    · obtain ⟨doc, _, _, hn, hval, he⟩ := addMember_ok ve actor freshId b now s hs
      obtain ⟨_, _, _, _, _, _, ⟨e, _, hde⟩, _⟩ := castNew_fields _ _ _ _ _ _ hn
      rw [he]
      intro m hm
      rcases List.mem_append.mp hm with hm | hm
      · exact h m hm
      · simp only [List.mem_singleton] at hm
        subst hm
        simp only [validateDoc, Bool.and_eq_true] at hval
        exact ⟨by rw [hde, normEmail_idem], validEmail_ne_empty _ hval.1.1.1.1.2⟩
    · rw [addMember_unchanged ve actor freshId b now s hs]
      exact h
  | update ve id b now =>
    simp only [Op.run]
    by_cases hs : (updateMember ve id b now s).1.status = 200
    · obtain ⟨n, old, _, hfind, _, hval, _, he⟩ := updateMember_ok ve id b now s hs
      obtain ⟨l1, l2, hl, h1, h2⟩ := findById_split n s old hfind
      have hstore : (updateMember ve id b now s).2 = l1 ++ applySet now b old :: l2 := by
        rw [he, hl]
        exact replaceFirst_split _ _ old l2 l1 (fun x hx => by simpa using h1 x hx)
          (by simpa using h2)
      rw [hstore]
      intro m hm
      rw [hl] at h
      rcases List.mem_append.mp hm with hm | hm
      · exact h m (List.mem_append_left _ hm)
      · rcases List.mem_cons.mp hm with hm | hm
        · subst hm
          cases hbe : b.email with
          | none =>
            have := h old (by simp)
            simpa [applySet, hbe] using this
          | some e =>
            simp only [updateValidators, Bool.and_eq_true] at hval
            have hve : validEmail (normEmail e) = true := by
              have := hval.1.1.1.1.2
              simpa [hbe] using this
            have hne := validEmail_ne_empty _ hve
            simp only [applySet, hbe, Option.map_some', Option.getD_some]
            exact ⟨normEmail_idem e, hne⟩
        · exact h m (List.mem_append_right _ (List.mem_cons_of_mem _ hm))
    · rw [updateMember_unchanged ve id b now s hs]
      exact h
  | renew id b now =>
    simp only [Op.run]
    by_cases hs : (renewMembership id b now s).1.status = 200
    · obtain ⟨n, old, pt, hidn, _, _, _, _⟩ := renewMembership_ok id b now s hs
      subst hidn
      obtain ⟨l1, old, l2, pt, hl, _, _, _, _, he⟩ := renewMembership_split n b now s hs
      rw [he]
      intro m hm
      rw [hl] at h
      rcases List.mem_append.mp hm with hm | hm
      · exact h m (List.mem_append_left _ hm)
      · rcases List.mem_cons.mp hm with hm | hm
        · subst hm
          exact h old (by simp)
        · exact h m (List.mem_append_right _ (List.mem_cons_of_mem _ hm))
    · rw [renewMembership_unchanged id b now s hs]
      exact h
  | remove id =>
    simp only [Op.run]
    intro m hm
    apply h
    unfold deleteMember at hm
    cases id with
    | malformed raw => exact hm
    | oid n =>
      cases hfind : findById n s with
      | none => simpa [hfind] using hm
      | some x =>
        simp only [hfind] at hm
        exact (List.eraseP_sublist _).subset hm

theorem reachable_stored_form (s : Store) (h : Reachable s) :
    ∀ m ∈ s, normEmail m.email = m.email ∧ m.email ≠ "" := by
  induction h with
  | empty => simp
  | step s op _ _ ih => exact step_stored_form s op ih

/-- C6: in every reachable collection, a candidate email that equals the
email of a stored document up to the case of its letters makes `addMember`
answer 409, and makes `updateMember` answer 409 for every target other than
that document; the collection is left as it was. -/
theorem duplicate_email_case_insensitive (a : Member) (store : Store) (e : String)
    (b : Body) (actor freshId : Nat) (now : Timestamp)
    (hr : Reachable store) (ha : a ∈ store) (hcase : lowercase e = lowercase a.email) :
    addMember [] actor freshId { b with email := some e } now store =
      (failure 409 "Member with this email or phone already exists", store) ∧
    ∀ n, n ≠ a._id →
      updateMember [] (.oid n) { b with email := some e } now store =
        (failure 409 "Email or phone already in use by another member", store) :=
  duplicate_of_stored_form a store e b actor freshId now ha
    (reachable_stored_form store hr a ha).1 (reachable_stored_form store hr a ha).2 hcase

/-- Witness of C6: after the creation of a member with the email
`dave@gym.com`, the candidate `Dave@Gym.COM` is rejected. -/
theorem duplicate_email_case_insensitive_witness :
    Reachable ((Op.add [] 7 4 daveBody jan1).run []) ∧
    ((Op.add [] 7 4 daveBody jan1).run []).map (fun m => m.email) = ["dave@gym.com"] ∧
    ∀ a ∈ (Op.add [] 7 4 daveBody jan1).run [],
      addMember [] 7 5 { aliceEdit with email := some "Dave@Gym.COM" } mar1
          ((Op.add [] 7 4 daveBody jan1).run []) =
        (failure 409 "Member with this email or phone already exists",
          (Op.add [] 7 4 daveBody jan1).run []) ∧
      ∀ n, n ≠ a._id →
        updateMember [] (.oid n) { aliceEdit with email := some "Dave@Gym.COM" } mar1
            ((Op.add [] 7 4 daveBody jan1).run []) =
          (failure 409 "Email or phone already in use by another member",
            (Op.add [] 7 4 daveBody jan1).run []) :=
  have hr : Reachable ((Op.add [] 7 4 daveBody jan1).run []) :=
    Reachable.step _ _ Reachable.empty (by simp [Op.fresh])
  have hall : ∀ a ∈ (Op.add [] 7 4 daveBody jan1).run [],
      lowercase "Dave@Gym.COM" = lowercase a.email := by decide
  ⟨hr, by decide, fun a ha =>
    duplicate_email_case_insensitive a _ "Dave@Gym.COM" aliceEdit 7 5 mar1 hr ha (hall a ha)⟩

/-! ## The list -/

theorem ceilDiv_bounds_pos (a b : Int) (hb : 0 < b) :
    (ceilDiv a b - 1) * b < a ∧ a ≤ ceilDiv a b * b := by
  unfold ceilDiv
  have h1 := Int.ediv_add_emod (-a) b
  have h2 := Int.emod_nonneg (-a) (ne_of_gt hb)
  have h3 := Int.emod_lt_of_pos (-a) hb
  constructor <;> nlinarith

theorem ceilDiv_eq_ceil_pos (a b : Int) (hb : 0 < b) :
    ceilDiv a b = ⌈(a : ℚ) / (b : ℚ)⌉ := by
  obtain ⟨h1, h2⟩ := ceilDiv_bounds_pos a b hb
  have hpos : (0 : ℚ) < (b : ℚ) := by exact_mod_cast hb
  symm
  rw [Int.ceil_eq_iff]
  constructor
  · rw [lt_div_iff₀ hpos]
    exact_mod_cast h1
  · rw [div_le_iff₀ hpos]
    exact_mod_cast h2

theorem neg_ediv_eq_ceil_neg (a b : Int) (hb : b < 0) :
    -(a / (-b)) = ⌈(a : ℚ) / (b : ℚ)⌉ := by
  have hnb : 0 < -b := by omega
  have h1 := Int.ediv_add_emod a (-b)
  have h2 := Int.emod_nonneg a (ne_of_gt hnb)
  have h3 := Int.emod_lt_of_pos a hnb
  have hneg : (b : ℚ) < 0 := by exact_mod_cast hb
  symm
  rw [Int.ceil_eq_iff]
  constructor
  · rw [lt_div_iff_of_neg hneg]
    have : a < (-(a / (-b)) - 1) * b := by nlinarith
    exact_mod_cast this
  · rw [div_le_iff_of_neg hneg]
    have : -(a / (-b)) * b ≤ a := by nlinarith
    exact_mod_cast this

/-- The lookup `Math.ceil(total / limit)` is the ceiling of the quotient for
every finite limit other than zero. -/
theorem totalPagesOf_eq_ceil (total l : Int) (hl : l ≠ 0) :
    totalPagesOf total (.finite l) = ⌈(total : ℚ) / (l : ℚ)⌉ := by
  unfold totalPagesOf
  by_cases hpos : 0 < l
  · simp only [hpos, if_true]
    exact ceilDiv_eq_ceil_pos total l hpos
  · simp only [hpos, if_false]
    exact neg_ediv_eq_ceil_neg total l (by omega)

/-- Below `2 ^ 53` a natural number is its own Number value. -/
theorem toNumber_small (n : Nat) (h : n < 2 ^ 53) : toNumber n = .finite (n : Int) := by
  have he : excessBits n 0 n = 0 := by
    cases n with
    | zero => rfl
    | succ k =>
      unfold excessBits
      simp only [Nat.add_zero]
      rw [if_pos h]
  unfold toNumber
  simp [he, Nat.mod_one]

/-- The Number value of `2 ^ 1024` is `Infinity`, and the largest double is
the value of the integers just below `2 ^ 1024 - 2 ^ 970`. -/
theorem toNumber_overflow :
    toNumber (2 ^ 1024) = .infinite false ∧
    toNumber (2 ^ 1024 - 2 ^ 970) = .infinite false ∧
    toNumber (2 ^ 1024 - 2 ^ 970 - 1) = .finite (2 ^ 1024 - 2 ^ 971) := by
  decide!

/-- Examples of `parseInt`: the rounding of an integer above `2 ^ 53`, white
space and a sign before the digits and text after them, the prefix `0x`, a
text without digits, and the zero that `||` replaces. -/
theorem parseInt_examples :
    parseInt (some "9007199254740993") = some (.finite 9007199254740992) ∧
    parseInt (some " -42px") = some (.finite (-42)) ∧
    parseInt (some "0x1F") = some (.finite 31) ∧
    parseInt (some "abc") = none ∧
    parseInt none = none ∧
    parseIntOr (some "-0") 10 = .finite 10 ∧
    parseIntOr (some "-5") 10 = .finite (-5) := by
  decide

theorem sortStable_contract : SortsByCreatedAtDesc sortStable := by
  intro l
  haveI : IsTotal Member (fun a b => a.createdAt ≥ b.createdAt) :=
    ⟨fun a b => le_total b.createdAt a.createdAt⟩
  haveI : IsTrans Member (fun a b => a.createdAt ≥ b.createdAt) :=
    ⟨fun a b c hab hbc => le_trans hbc hab⟩
  exact ⟨List.perm_insertionSort _ l, List.sorted_insertionSort _ l⟩

theorem tokenize_literal : ∀ l : List Char, (∀ c ∈ l, c.toNat ∉ regexMeta) →
    tokenize l = some (l.map Tok.lit) := by
  intro l
  induction l with
  | nil => intro _; rfl
  | cons c t ih =>
    intro h
    have hc : c.toNat ∉ regexMeta := h c (by simp)
    have hdot : c ≠ '.' := by
      intro h0
      subst h0
      exact hc (by decide)
    have ht := ih (fun x hx => h x (by simp [hx]))
    simp [tokenize, hdot, hc, ht]

theorem matchesPrefix_lit (same : Char → Char → Bool) : ∀ (p t : List Char),
    matchesPrefix same (p.map Tok.lit) t =
      (decide (p.length ≤ t.length) && (p.zip t).all fun x => x.1 == x.2 || same x.1 x.2) := by
  intro p
  induction p with
  | nil => intro t; simp [matchesPrefix]
  | cons a p ih =>
    intro t
    cases t with
    | nil => simp [matchesPrefix]
    | cons c cs =>
      simp only [List.map_cons, matchesPrefix, tokMatches, ih, List.length_cons, List.zip_cons_cons,
        List.all_cons, Nat.add_le_add_iff_right]
      cases decide (p.length ≤ cs.length) <;> simp

theorem regexFind_lit (same : Char → Char → Bool) (p : List Char) : ∀ t : List Char,
    regexFind same (p.map Tok.lit) t = containsCI same p t := by
  intro t
  induction t with
  | nil => simp [regexFind, containsCI, matchesPrefix_lit]
  | cons c cs ih =>
    rw [regexFind, ih, matchesPrefix_lit]
    simp only [containsCI, List.tails, List.any_cons]

theorem listFilter_literal (db : Storage) (q : ListQuery)
    (hlit : ∀ c ∈ (q.search.getD "").data, c.toNat ∉ regexMeta) :
    ∃ search, searchOf db q = some search ∧
      ∀ m, listFilter search (q.status.getD "") (q.packageType.getD "") m =
        matchesSpec db.sameLetter q m := by
  unfold searchOf
  by_cases h0 : q.search.getD "" = ""
  · refine ⟨none, by simp [h0], ?_⟩
    intro m
    simp [listFilter, matchesSpec, h0]
  · refine ⟨some (regexFind db.sameLetter ((q.search.getD "").data.map Tok.lit)), ?_, ?_⟩
    · simp [h0, regexOf, tokenize_literal _ hlit]
    · intro m
      have hb : (q.search.getD "" == "") = false := by simpa using h0
      simp only [listFilter, matchesSpec, regexFind_lit, hb, Bool.false_or]

theorem parseIntOr_ne_zero (value : Option String) (fallback : Int) (h : fallback ≠ 0) :
    parseIntOr value fallback ≠ .finite 0 := by
  unfold parseIntOr
  cases parseInt value with
  | none => simpa using h
  | some n =>
    cases n with
    | infinite s => simp
    | finite n =>
      by_cases hn : n = 0
      · simp [hn, h]
      · simp [hn]

theorem parseIntOr_fallback (value : Option String) (fallback : Int)
    (h : parseInt value = none ∨ parseInt value = some (.finite 0)) :
    parseIntOr value fallback = .finite fallback := by
  unfold parseIntOr
  rcases h with h | h <;> simp [h]

theorem getMembers_ok (db : Storage) (q : ListQuery) (store : Store)
    (search : Option (List Char → Bool)) (p l : Int) (hs : searchOf db q = some search)
    (hp : parseIntOr q.page 1 = .finite p) (hl : parseIntOr q.limit 10 = .finite l)
    (hp1 : 1 ≤ p) (hl1 : 1 ≤ l) (hl2 : l < 2 ^ 53) (hskip : (p - 1) * l < 2 ^ 53) :
    getMembers db q store =
      ({ status := 200, success := true, message := none,
         data := some (.page
           (((db.sort (store.filter
               (listFilter search (q.status.getD "") (q.packageType.getD "")))).drop
             ((p - 1) * l).toNat).take l.toNat)
           { currentPage := .finite p
             totalPages := ceilDiv ((store.filter
               (listFilter search (q.status.getD "") (q.packageType.getD ""))).length : Int) l
             totalItems := ((store.filter
               (listFilter search (q.status.getD "") (q.packageType.getD ""))).length : Int)
             itemsPerPage := .finite l }) }, store) := by
  have hpos : 0 < l := by omega
  simp only [getMembers, getMembersTry, hs, hp, hl, findPage, totalPagesOf,
    if_pos (And.intro hp1 (And.intro hl1 (And.intro hl2 hskip))), if_pos hpos]

/-- C21, as amended: for a search text without regular-expression syntax, an
effective `page` and `limit` of at least one, and `limit` and
`(page - 1) * limit` below `2 ^ 53`, `getMembers` answers with the stored
documents that satisfy every given condition (the search text a substring of
`fullName`, `email` or `phone`, letters compared as the option `i` of the
regular-expression engine compares them; the status; the package), ordered by
`createdAt` descending, without the first `(page - 1) * limit` of them and
cut to `limit`. -/
theorem getMembers_list (db : Storage) (q : ListQuery) (store : Store) (p l : Int)
    (hsort : SortsByCreatedAtDesc db.sort)
    (hlit : ∀ c ∈ (q.search.getD "").data, c.toNat ∉ regexMeta)
    (hp : parseIntOr q.page 1 = .finite p) (hl : parseIntOr q.limit 10 = .finite l)
    (hp1 : 1 ≤ p) (hl1 : 1 ≤ l) (hl2 : l < 2 ^ 53) (hskip : (p - 1) * l < 2 ^ 53) :
    ∃ (sorted : List Member) (pag : Pagination),
      sorted.Perm (store.filter (matchesSpec db.sameLetter q)) ∧
      sorted.Pairwise (fun a b => a.createdAt ≥ b.createdAt) ∧
      getMembers db q store =
        ({ status := 200, success := true, message := none,
           data := some (.page ((sorted.drop ((p - 1) * l).toNat).take l.toNat) pag) },
         store) := by
  obtain ⟨search, hs, hf⟩ := listFilter_literal db q hlit
  have hfilter : store.filter (listFilter search (q.status.getD "") (q.packageType.getD "")) =
      store.filter (matchesSpec db.sameLetter q) := by
    congr 1
    funext m
    exact hf m
  have h := getMembers_ok db q store search p l hs hp hl hp1 hl1 hl2 hskip
  rw [hfilter] at h
  exact ⟨db.sort (store.filter (matchesSpec db.sameLetter q)), _, (hsort _).1, (hsort _).2, h⟩

/-- Witness of C21: the second page of size one of the search for `GYM`,
which the three stored emails contain in small letters. -/
theorem getMembers_list_witness :
    pageData (getMembers sampleDb
      { search := some "GYM", page := some "2", limit := some "1" } [alice, carol, bob]) =
        [bob] ∧
    ∃ (sorted : List Member) (pag : Pagination),
      sorted.Perm ([alice, carol, bob].filter
        (matchesSpec sampleDb.sameLetter
          { search := some "GYM", page := some "2", limit := some "1" })) ∧
      sorted.Pairwise (fun a b => a.createdAt ≥ b.createdAt) ∧
      getMembers sampleDb { search := some "GYM", page := some "2", limit := some "1" }
          [alice, carol, bob] =
        ({ status := 200, success := true, message := none,
           data := some (.page ((sorted.drop ((2 - 1) * 1 : Int).toNat).take (1 : Int).toNat)
             pag) }, [alice, carol, bob]) :=
  ⟨by decide,
    getMembers_list sampleDb { search := some "GYM", page := some "2", limit := some "1" }
      [alice, carol, bob] 2 1 sortStable_contract (by decide) (by decide) (by decide)
      (by decide) (by decide) (by decide) (by decide)⟩

/-- Counterexample to C21 as stated: the search text `ali.e` is a substring
of no field of `alice`, and `alice` is returned, because the text is a
regular expression in which the dot stands for any character. -/
theorem getMembers_search_is_regex :
    matchesSpec sampleDb.sameLetter { search := some "ali.e" } alice = false ∧
    (getMembers sampleDb { search := some "ali.e" } [alice, bob]).1.status = 200 ∧
    pageData (getMembers sampleDb { search := some "ali.e" } [alice, bob]) = [alice] := by
  decide

/-- C22: in every list response, `totalItems` is the number of stored
documents that match the filter of the query, `itemsPerPage` is the effective
limit (10 when `parseInt` of the parameter is `NaN` or 0, as for a missing
parameter), `currentPage` is the effective page (1 in the same cases), and
`totalPages` is the ceiling of `totalItems / itemsPerPage` (zero for an
infinite `itemsPerPage`). -/
theorem getMembers_pagination (db : Storage) (q : ListQuery) (store : Store)
    (h200 : (getMembers db q store).1.status = 200) :
    ∃ search members pag, searchOf db q = some search ∧
      (getMembers db q store).1.data = some (.page members pag) ∧
      pag.totalItems = ((store.filter
        (listFilter search (q.status.getD "") (q.packageType.getD ""))).length : Int) ∧
      pag.itemsPerPage = parseIntOr q.limit 10 ∧
      (parseInt q.limit = none ∨ parseInt q.limit = some (.finite 0) →
        pag.itemsPerPage = .finite 10) ∧
      (q.limit = none → pag.itemsPerPage = .finite 10) ∧
      pag.currentPage = parseIntOr q.page 1 ∧
      (parseInt q.page = none ∨ parseInt q.page = some (.finite 0) →
        pag.currentPage = .finite 1) ∧
      (q.page = none → pag.currentPage = .finite 1) ∧
      pag.itemsPerPage ≠ .finite 0 ∧
      (∀ l : Int, pag.itemsPerPage = .finite l →
        pag.totalPages = ⌈(pag.totalItems : ℚ) / (l : ℚ)⌉) ∧
      (∀ negative, pag.itemsPerPage = .infinite negative → pag.totalPages = 0) := by
  have hnone : ∀ d : Int, parseIntOr none d = .finite d :=
    fun d => parseIntOr_fallback none d (Or.inl rfl)
  unfold getMembers getMembersTry at h200 ⊢
  cases hs : searchOf db q with
  | none =>
    simp only [hs] at h200
    exact absurd h200 (by decide)
  | some search =>
    simp only [hs] at h200 ⊢
    cases hf : findPage db q store
        (listFilter search (q.status.getD "") (q.packageType.getD ""))
        (parseIntOr q.page 1) (parseIntOr q.limit 10) with
    | error e =>
      simp [hf, handleError] at h200
    | ok members =>
      simp only [hf]
      refine ⟨search, members, _, rfl, rfl, rfl, rfl, parseIntOr_fallback q.limit 10, ?_, rfl,
        parseIntOr_fallback q.page 1, ?_, parseIntOr_ne_zero q.limit 10 (by decide), ?_, ?_⟩
      · intro hq
        simp only [hq]
        exact hnone 10
      · intro hq
        simp only [hq]
        exact hnone 1
      · intro l hl
        have hne : l ≠ 0 := by
          intro h0
          rw [h0] at hl
          exact parseIntOr_ne_zero q.limit 10 (by decide) hl
        simp only at hl ⊢
        rw [hl]
        exact totalPagesOf_eq_ceil _ l hne
      · intro negative hl
        simp only at hl ⊢
        rw [hl]
        rfl

/-- Witness of C22: three documents match; for a limit of 2 and a page
parameter that is not a number the response counts two pages; where the
storage answers, the limit `-5` gives `itemsPerPage = -5` and zero pages, and
the limit `9007199254740993` gives the double next to it and one page. -/
theorem getMembers_pagination_witness :
    pagination (getMembers sampleDb { page := some "first", limit := some "2" }
      [alice, carol, bob]) =
      some { currentPage := .finite 1, totalPages := 2, totalItems := 3,
             itemsPerPage := .finite 2 } ∧
    pagination (getMembers sampleDb { limit := some "0" } [alice, carol, bob]) =
      some { currentPage := .finite 1, totalPages := 1, totalItems := 3,
             itemsPerPage := .finite 10 } ∧
    pagination (getMembers lenientDb { limit := some "-5" } [alice, carol, bob]) =
      some { currentPage := .finite 1, totalPages := 0, totalItems := 3,
             itemsPerPage := .finite (-5) } ∧
    (∃ search members pag,
      searchOf sampleDb { page := some "first", limit := some "2" } = some search ∧
      (getMembers sampleDb { page := some "first", limit := some "2" }
        [alice, carol, bob]).1.data = some (.page members pag) ∧
      pag.totalItems = (([alice, carol, bob].filter
        (listFilter search ((none : Option String).getD "")
          ((none : Option String).getD ""))).length : Int) ∧
      pag.itemsPerPage = parseIntOr (some "2") 10 ∧
      (parseInt (some "2") = none ∨ parseInt (some "2") = some (.finite 0) →
        pag.itemsPerPage = .finite 10) ∧
      ((some "2" : Option String) = none → pag.itemsPerPage = .finite 10) ∧
      pag.currentPage = parseIntOr (some "first") 1 ∧
      (parseInt (some "first") = none ∨ parseInt (some "first") = some (.finite 0) →
        pag.currentPage = .finite 1) ∧
      ((some "first" : Option String) = none → pag.currentPage = .finite 1) ∧
      pag.itemsPerPage ≠ .finite 0 ∧
      (∀ l : Int, pag.itemsPerPage = .finite l →
        pag.totalPages = ⌈(pag.totalItems : ℚ) / (l : ℚ)⌉) ∧
      (∀ negative, pag.itemsPerPage = .infinite negative → pag.totalPages = 0)) ∧
    (getMembers lenientDb { limit := some "-5" } [alice, carol, bob]).1.status = 200 ∧
    pagination (getMembers lenientDb { limit := some "9007199254740993" }
      [alice, carol, bob]) =
      some { currentPage := .finite 1, totalPages := 1, totalItems := 3,
             itemsPerPage := .finite 9007199254740992 } :=
  ⟨by decide, by decide, by decide,
    getMembers_pagination sampleDb { page := some "first", limit := some "2" }
      [alice, carol, bob] (by decide),
    by decide, by decide⟩

theorem flatMap_pages (f : Nat → List Member) (sorted : List Member) (ln : Nat) :
    ∀ k : Nat, (∀ i, i < k → f i = (sorted.drop (i * ln)).take ln) →
      (List.range k).flatMap f = sorted.take (k * ln) := by
  intro k
  induction k with
  | zero => intro _; simp
  | succ k ih =>
    intro h
    rw [List.range_succ, List.flatMap_append, ih (fun i hi => h i (by omega)),
      List.flatMap_singleton, h k (by omega), Nat.succ_mul, List.take_add]

theorem ceilDiv_toNat_mul (a : Nat) (b : Int) (hb : 1 ≤ b) :
    a ≤ (ceilDiv (a : Int) b).toNat * b.toNat ∧
      ceilDiv (a : Int) b = ((ceilDiv (a : Int) b).toNat : Int) := by
  obtain ⟨h1, h2⟩ := ceilDiv_bounds_pos (a : Int) b (by omega)
  have hnn : 0 ≤ ceilDiv (a : Int) b := by
    by_contra hc
    have : ceilDiv (a : Int) b ≤ -1 := by omega
    have : ceilDiv (a : Int) b * b ≤ -1 * b := Int.mul_le_mul_of_nonneg_right this (by omega)
    have ha : (0 : Int) ≤ a := Int.ofNat_nonneg a
    omega
  refine ⟨?_, (Int.toNat_of_nonneg hnn).symm⟩
  have e1 : ((ceilDiv (a : Int) b).toNat : Int) = ceilDiv (a : Int) b := Int.toNat_of_nonneg hnn
  have e2 : (b.toNat : Int) = b := Int.toNat_of_nonneg (by omega)
  have : (a : Int) ≤ ((ceilDiv (a : Int) b).toNat * b.toNat : Nat) := by
    push_cast
    rw [e1, e2]
    exact h2
  exact_mod_cast this

/-- C23: for a fixed collection, a fixed filter and an effective limit of at
least one (below `2 ^ 53`, for a collection of fewer than `2 ^ 53` documents):
when the engine rejects the search text as a pattern every page is answered
500; otherwise each of the pages 1 to `totalPages` is answered 200 with the
same `totalPages` and `totalItems`, and the pages put one after the other are
the matching documents, each exactly once, `totalItems` in all, in descending
order of `createdAt`. -/
theorem getMembers_pages_concat (db : Storage) (pg : Nat → Option String) (q : ListQuery)
    (store : Store) (l : Int)
    (hsort : SortsByCreatedAtDesc db.sort)
    (hl : parseIntOr q.limit 10 = .finite l) (hl1 : 1 ≤ l) (hl2 : l < 2 ^ 53)
    (hstore : (store.length : Int) < 2 ^ 53)
    (hpg : ∀ p : Nat, 1 ≤ p → p ≤ store.length → parseIntOr (pg p) 1 = .finite (p : Int)) :
    (searchOf db q = none ∧
      ∀ p, (getMembers db { q with page := pg p } store).1.status = 500) ∨
    ∃ search, searchOf db q = some search ∧
      ∃ (sorted : List Member) (totalPages : Nat),
        sorted.Perm (store.filter
          (listFilter search (q.status.getD "") (q.packageType.getD ""))) ∧
        (store.Nodup → sorted.Nodup) ∧
        sorted.Pairwise (fun a b => a.createdAt ≥ b.createdAt) ∧
        (∀ p, 1 ≤ p → p ≤ totalPages →
          (getMembers db { q with page := pg p } store).1.status = 200 ∧
          (pagination (getMembers db { q with page := pg p } store)).map
            (fun x => (x.totalPages, x.totalItems)) =
              some ((totalPages : Int), (sorted.length : Int))) ∧
        (List.range totalPages).flatMap
          (fun i => pageData (getMembers db { q with page := pg (i + 1) } store)) =
          sorted := by
  cases hs : searchOf db q with
  | none =>
    left
    refine ⟨rfl, ?_⟩
    intro p
    have hs2 : searchOf db { q with page := pg p } = none := hs
    simp only [getMembers, getMembersTry, hs2]
    rfl
  | some search =>
    right
    refine ⟨search, rfl, ?_⟩
    generalize hM : store.filter
      (listFilter search (q.status.getD "") (q.packageType.getD "")) = M
    have hMlen : M.length ≤ store.length := by
      rw [← hM]
      exact List.length_filter_le _ _
    obtain ⟨hcover, hcast⟩ := ceilDiv_toNat_mul M.length l hl1
    obtain ⟨hb1, hb2⟩ := ceilDiv_bounds_pos (M.length : Int) l (by omega)
    have htp : ∀ p : Nat, 1 ≤ p → p ≤ (ceilDiv (M.length : Int) l).toNat →
        ((p : Int) - 1) * l < (M.length : Int) := by
      intro p hp1 hp2
      have h1 : (p : Int) ≤ ceilDiv (M.length : Int) l := by
        rw [hcast]
        exact_mod_cast hp2
      have h2 : ((p : Int) - 1) * l ≤ (ceilDiv (M.length : Int) l - 1) * l :=
        Int.mul_le_mul_of_nonneg_right (by omega) (by omega)
      omega
    have hple : ∀ p : Nat, 1 ≤ p → p ≤ (ceilDiv (M.length : Int) l).toNat →
        p ≤ store.length := by
      intro p hp1 hp2
      have h1 := htp p hp1 hp2
      have h2 : ((p : Int) - 1) * 1 ≤ ((p : Int) - 1) * l :=
        Int.mul_le_mul_of_nonneg_left hl1 (by omega)
      have h3 : (M.length : Int) ≤ (store.length : Int) := by exact_mod_cast hMlen
      omega
    have hget : ∀ p : Nat, 1 ≤ p → p ≤ (ceilDiv (M.length : Int) l).toNat →
        getMembers db { q with page := pg p } store =
          ({ status := 200, success := true, message := none,
             data := some (.page
               (((db.sort M).drop (((p : Int) - 1) * l).toNat).take l.toNat)
               { currentPage := .finite (p : Int)
                 totalPages := ceilDiv (M.length : Int) l
                 totalItems := (M.length : Int)
                 itemsPerPage := .finite l }) }, store) := by
      intro p hp1 hp2
      have hskip : ((p : Int) - 1) * l < 2 ^ 53 := by
        have h1 := htp p hp1 hp2
        have h3 : (M.length : Int) ≤ (store.length : Int) := by exact_mod_cast hMlen
        omega
      have h := getMembers_ok db { q with page := pg p } store search (p : Int) l hs
        (hpg p hp1 (hple p hp1 hp2)) hl (by omega) hl1 hl2 hskip
      simp only [hM] at h
      exact h
    have hlen : (db.sort M).length = M.length := ((hsort M).1).length_eq
    refine ⟨db.sort M, (ceilDiv (M.length : Int) l).toNat, (hsort M).1, ?_, (hsort M).2, ?_, ?_⟩
    · intro hnd
      have : M.Nodup := by
        rw [← hM]
        exact hnd.filter _
      exact ((hsort M).1.nodup_iff).mpr this
    · intro p hp1 hp2
      rw [hget p hp1 hp2]
      simp only [pagination, Option.map_some', hlen]
      rw [← hcast]
      exact ⟨trivial, rfl⟩
    · rw [flatMap_pages _ (db.sort M) l.toNat]
      · apply List.take_of_length_le
        rw [hlen]
        exact hcover
      · intro i hi
        rw [hget (i + 1) (by omega) (by omega)]
        simp only [pageData]
        congr 2
        have e2 : (l.toNat : Int) = l := Int.toNat_of_nonneg (by omega)
        have : (((i + 1 : Nat) : Int) - 1) * l = ((i * l.toNat : Nat) : Int) := by
          push_cast
          rw [e2]
          ring
        rw [this, Int.toNat_ofNat]

/-- Witness of C23: three documents, two of them with the same `createdAt`,
in pages of one; and a search text that the engine of `sampleDb` rejects. -/
theorem getMembers_pages_concat_witness :
    (List.range 3).flatMap
      (fun i => pageData (getMembers sampleDb { limit := some "1", page := threePages (i + 1) }
        [carol, alice, bob])) = [alice, bob, carol] ∧
    alice.createdAt = bob.createdAt ∧
    ((searchOf sampleDb { limit := some "1" } = none ∧
      ∀ p, (getMembers sampleDb { limit := some "1", page := threePages p }
        [carol, alice, bob]).1.status = 500) ∨
    ∃ search, searchOf sampleDb { limit := some "1" } = some search ∧
      ∃ (sorted : List Member) (totalPages : Nat),
        sorted.Perm ([carol, alice, bob].filter
          (listFilter search ((none : Option String).getD "")
            ((none : Option String).getD ""))) ∧
        ([carol, alice, bob].Nodup → sorted.Nodup) ∧
        sorted.Pairwise (fun a b => a.createdAt ≥ b.createdAt) ∧
        (∀ p, 1 ≤ p → p ≤ totalPages →
          (getMembers sampleDb { limit := some "1", page := threePages p }
            [carol, alice, bob]).1.status = 200 ∧
          (pagination (getMembers sampleDb { limit := some "1", page := threePages p }
            [carol, alice, bob])).map (fun x => (x.totalPages, x.totalItems)) =
              some ((totalPages : Int), (sorted.length : Int))) ∧
        (List.range totalPages).flatMap
          (fun i => pageData (getMembers sampleDb
            { limit := some "1", page := threePages (i + 1) } [carol, alice, bob])) =
          sorted) ∧
    (getMembers sampleDb { search := some "(", limit := some "1", page := threePages 1 }
      [carol, alice, bob]).1.status = 500 :=
  ⟨by decide, by decide,
    getMembers_pages_concat sampleDb threePages { limit := some "1" } [carol, alice, bob] 1
      sortStable_contract (by decide) (by decide) (by decide) (by decide)
      (by
        intro p hp1 hp2
        have hp3 : p ≤ 3 := hp2
        have hp : p = 1 ∨ p = 2 ∨ p = 3 := by omega
        rcases hp with rfl | rfl | rfl <;> decide),
    by decide⟩

/-! ## Frames of update and renewal -/

theorem updateMember_split (ve : List String) (n : Nat) (b : Body) (now : Timestamp)
    (store : Store) (h : (updateMember ve (.oid n) b now store).1.status = 200) :
    ∃ l1 old l2, store = l1 ++ old :: l2 ∧ (∀ x ∈ l1, x._id ≠ n) ∧ old._id = n ∧
      updateMember ve (.oid n) b now store =
        ({ status := 200, success := true,
           message := some (.text "Member updated successfully"),
           data := some (.member (applySet now b old)) },
         l1 ++ applySet now b old :: l2) := by
  obtain ⟨n2, old, hid, hf, _, _, _, he⟩ := updateMember_ok ve (.oid n) b now store h
  cases hid
  obtain ⟨l1, l2, hl, h1, h2⟩ := findById_split n store old hf
  refine ⟨l1, old, l2, hl, h1, h2, ?_⟩
  rw [he]
  refine Prod.ext rfl ?_
  show replaceFirst _ _ store = _
  rw [hl]
  exact replaceFirst_split _ _ old l2 l1 (fun x hx => by simpa using h1 x hx) (by simpa using h2)

/-- C24, as amended: a successful `renewMembership` leaves the `joinDate` of
the target document as it was; a successful `updateMember` leaves it as it
was unless the body carries a `joinDate`, which then replaces it. -/
theorem joinDate_after_write (ve : List String) (n : Nat) (b : Body) (rb : RenewBody)
    (now : Timestamp) (store : Store) :
    ((updateMember ve (.oid n) b now store).1.status = 200 →
      ∃ l1 old l2 new, store = l1 ++ old :: l2 ∧ (∀ x ∈ l1, x._id ≠ n) ∧ old._id = n ∧
        (updateMember ve (.oid n) b now store).2 = l1 ++ new :: l2 ∧
        patched b.joinDate old.joinDate new.joinDate) ∧
    ((renewMembership (.oid n) rb now store).1.status = 200 →
      ∃ l1 old l2 new, store = l1 ++ old :: l2 ∧ (∀ x ∈ l1, x._id ≠ n) ∧ old._id = n ∧
        (renewMembership (.oid n) rb now store).2 = l1 ++ new :: l2 ∧
        new.joinDate = old.joinDate) := by
  constructor
  · intro h
    obtain ⟨l1, old, l2, hl, h1, h2, he⟩ := updateMember_split ve n b now store h
    refine ⟨l1, old, l2, applySet now b old, hl, h1, h2, by rw [he], ?_⟩
    cases hb : b.joinDate <;> simp [patched, applySet, hb]
  · intro h
    obtain ⟨l1, old, l2, pt, hl, h1, h2, _, _, he⟩ := renewMembership_split n rb now store h
    exact ⟨l1, old, l2, renewSpec now rb pt old, hl, h1, h2, by rw [he], rfl⟩

/-- Witness of C24: an edit and a renewal that succeed. -/
theorem joinDate_after_write_witness :
    (∃ l1 old l2 new, [alice] = l1 ++ old :: l2 ∧ (∀ x ∈ l1, x._id ≠ 1) ∧ old._id = 1 ∧
        (updateMember [] (.oid 1) aliceEdit mar1 [alice]).2 = l1 ++ new :: l2 ∧
        patched aliceEdit.joinDate old.joinDate new.joinDate) ∧
    (∃ l1 old l2 new, [alice] = l1 ++ old :: l2 ∧ (∀ x ∈ l1, x._id ≠ 1) ∧ old._id = 1 ∧
        (renewMembership (.oid 1) renewBasic mar1 [alice]).2 = l1 ++ new :: l2 ∧
        new.joinDate = old.joinDate) :=
  ⟨(joinDate_after_write [] 1 aliceEdit renewBasic mar1 [alice]).1 (by decide),
   (joinDate_after_write [] 1 aliceEdit renewBasic mar1 [alice]).2 (by decide)⟩

/-- Counterexample to C24 as stated: an edit of `alice` whose body carries
the `joinDate` 0 succeeds and stores the `joinDate` 0. -/
theorem updateMember_sets_joinDate :
    (updateMember [] (.oid 1) aliceBackdate mar1 [alice]).1.status = 200 ∧
    (updateMember [] (.oid 1) aliceBackdate mar1 [alice]).2.map (fun m => m.joinDate) = [0] ∧
    alice.joinDate ≠ 0 := by
  decide

/-- C25, as amended: a successful `renewMembership` stores the old
`paymentHistory` followed by one entry; a successful `updateMember` leaves
`paymentHistory` as it was unless the body carries one, which then replaces
it. -/
theorem paymentHistory_after_write (ve : List String) (n : Nat) (b : Body) (rb : RenewBody)
    (now : Timestamp) (store : Store) :
    ((updateMember ve (.oid n) b now store).1.status = 200 →
      ∃ l1 old l2 new, store = l1 ++ old :: l2 ∧ (∀ x ∈ l1, x._id ≠ n) ∧ old._id = n ∧
        (updateMember ve (.oid n) b now store).2 = l1 ++ new :: l2 ∧
        patched (b.paymentHistory.map (List.map (castPayment now)))
          old.paymentHistory new.paymentHistory) ∧
    ((renewMembership (.oid n) rb now store).1.status = 200 →
      ∃ l1 old l2 new entry, store = l1 ++ old :: l2 ∧ (∀ x ∈ l1, x._id ≠ n) ∧ old._id = n ∧
        (renewMembership (.oid n) rb now store).2 = l1 ++ new :: l2 ∧
        new.paymentHistory = old.paymentHistory ++ [entry]) := by
  constructor
  · intro h
    obtain ⟨l1, old, l2, hl, h1, h2, he⟩ := updateMember_split ve n b now store h
    refine ⟨l1, old, l2, applySet now b old, hl, h1, h2, by rw [he], ?_⟩
    cases hb : b.paymentHistory <;> simp [patched, applySet, hb]
  · intro h
    obtain ⟨l1, old, l2, pt, hl, h1, h2, _, _, he⟩ := renewMembership_split n rb now store h
    exact ⟨l1, old, l2, renewSpec now rb pt old, _, hl, h1, h2, by rw [he], rfl⟩

/-- Witness of C25: an edit and a renewal of `carolPaid` that succeed. -/
theorem paymentHistory_after_write_witness :
    (∃ l1 old l2 new, [carolPaid] = l1 ++ old :: l2 ∧ (∀ x ∈ l1, x._id ≠ 3) ∧ old._id = 3 ∧
        (updateMember [] (.oid 3) carolWipe mar1 [carolPaid]).2 = l1 ++ new :: l2 ∧
        patched (carolWipe.paymentHistory.map (List.map (castPayment mar1)))
          old.paymentHistory new.paymentHistory) ∧
    (∃ l1 old l2 new entry, [carolPaid] = l1 ++ old :: l2 ∧ (∀ x ∈ l1, x._id ≠ 3) ∧
        old._id = 3 ∧
        (renewMembership (.oid 3) renewBasic mar1 [carolPaid]).2 = l1 ++ new :: l2 ∧
        new.paymentHistory = old.paymentHistory ++ [entry]) :=
  ⟨(paymentHistory_after_write [] 3 carolWipe renewBasic mar1 [carolPaid]).1 (by decide),
   (paymentHistory_after_write [] 3 carolWipe renewBasic mar1 [carolPaid]).2 (by decide)⟩

/-- Counterexample to C25 as stated: `carolPaid` has one payment; an edit
whose body carries an empty `paymentHistory` succeeds and stores none. -/
theorem updateMember_replaces_paymentHistory :
    carolPaid.paymentHistory.length = 1 ∧
    (updateMember [] (.oid 3) carolWipe mar1 [carolPaid]).1.status = 200 ∧
    (updateMember [] (.oid 3) carolWipe mar1 [carolPaid]).2.map
      (fun m => m.paymentHistory.length) = [0] := by
  decide

/-! ## Failures -/

/-- C26, the code on a malformed id: `getMemberById`, `updateMember` and
`deleteMember` answer 400, and `renewMembership`, whose `catch` block has no
branch for the cast error, answers 500. -/
theorem malformed_id_statuses (raw : String) (users : List User) (b : Body) (rb : RenewBody)
    (now : Timestamp) (store : Store) :
    getMemberById users (.malformed raw) store =
      (handleError (.text "Invalid member ID") 400, store) ∧
    updateMember [] (.malformed raw) b now store =
      (handleError (.text "Invalid member ID") 400, store) ∧
    deleteMember (.malformed raw) store =
      (handleError (.text "Invalid member ID") 400, store) ∧
    renewMembership (.malformed raw) rb now store =
      (handleError (.ofError .castObjectId) 500, store) ∧
    (renewMembership (.malformed raw) rb now store).1.status = 500 := by
  refine ⟨rfl, ?_, rfl, rfl, rfl⟩
  simp [updateMember, updateMemberInterleaved, updateMemberTry, updateMemberCatch]

/-- C27, as amended: when the conflict check has passed and the storage then
rejects the insert of `addMember` or the update of `updateMember` with its
duplicate-key error, the answer is 500 with the message of that error, and
the collection is left as the storage holds it. -/
theorem storage_rejection_is_500 (ve : List String) (actor freshId : Nat) (id : ReqId)
    (b : Body) (now : Timestamp) (seen store : Store) :
    (addMemberTry ve actor freshId b now seen store = .error .duplicateKey →
      (seen.find? (addConflict b)).isSome = false ∧
      addMemberInterleaved ve actor freshId b now seen store =
        (handleError (.ofError .duplicateKey) 500, store)) ∧
    (updateMemberTry ve id b now seen store = .error .duplicateKey →
      (∀ n, id = .oid n →
        ((truthy b.email || truthy b.phone) &&
          (seen.find? (conflictQuery b n)).isSome) = false) ∧
      updateMemberInterleaved ve id b now seen store =
        (handleError (.ofError .duplicateKey) 500, store)) := by
  constructor
  · intro h
    refine ⟨?_, ?_⟩
    · by_cases hc : (seen.find? (addConflict b)).isSome = true
      · exfalso
        unfold addMemberTry at h
        split_ifs at h
      · simpa using hc
    · simp [addMemberInterleaved, h, addMemberCatch]
  · intro h
    refine ⟨?_, ?_⟩
    · intro n hid
      subst hid
      by_cases hc : ((truthy b.email || truthy b.phone) &&
          (seen.find? (conflictQuery b n)).isSome) = true
      · exfalso
        unfold updateMemberTry at h
        split_ifs at h with hve <;> simp [hc] at h
      · simpa using hc
    · simp [updateMemberInterleaved, h, updateMemberCatch]

/-- Witness of C27: while `daveBody` is being created, and while `alice` is
being moved to the email of `dave`, another request stores `dave`. -/
theorem storage_rejection_is_500_witness :
    ((List.find? (addConflict daveBody) [alice]).isSome = false ∧
      addMemberInterleaved [] 7 5 daveBody jan1 [alice] [alice, dave] =
        (handleError (.ofError .duplicateKey) 500, [alice, dave])) ∧
    ((∀ n, ReqId.oid 1 = .oid n →
        ((truthy aliceToDave.email || truthy aliceToDave.phone) &&
          (List.find? (conflictQuery aliceToDave n) [alice]).isSome) = false) ∧
      updateMemberInterleaved [] (.oid 1) aliceToDave mar1 [alice] [alice, dave] =
        (handleError (.ofError .duplicateKey) 500, [alice, dave])) :=
  ⟨(storage_rejection_is_500 [] 7 5 (.oid 1) daveBody jan1 [alice] [alice, dave]).1 rfl,
   (storage_rejection_is_500 [] 7 5 (.oid 1) aliceToDave mar1 [alice] [alice, dave]).2 rfl⟩

/-- Counterexample to C27 as stated: in the two interleavings of the witness
the conflict check passes, the storage rejects the write, and the status is
500, not 409. -/
theorem storage_rejection_not_409 :
    (List.find? (addConflict daveBody) [alice]).isSome = false ∧
    addMemberTry [] 7 5 daveBody jan1 [alice] [alice, dave] = .error .duplicateKey ∧
    (addMemberInterleaved [] 7 5 daveBody jan1 [alice] [alice, dave]).1.status = 500 ∧
    (List.find? (conflictQuery aliceToDave 1) [alice]).isSome = false ∧
    updateMemberTry [] (.oid 1) aliceToDave mar1 [alice] [alice, dave] =
      .error .duplicateKey ∧
    (updateMemberInterleaved [] (.oid 1) aliceToDave mar1 [alice] [alice, dave]).1.status =
      500 :=
  ⟨by decide, rfl, by decide, by decide, rfl, by decide⟩

/-- C28, as amended: `renewMembership` on an existing member with a
`packageType` outside the enum, or with none, is rejected by the validation of
`save()`: the `try` block throws a `ValidationError`, the response is a
failure without data, and the collection is left as it was. -/
theorem renewMembership_rejects_unknown_package (n : Nat) (rb : RenewBody) (now : Timestamp)
    (store : Store) (old : Member) (hf : findById n store = some old)
    (hpt : rb.packageType = none ∨ ∃ pt, rb.packageType = some pt ∧ pt ∉ packageTypes) :
    renewMembershipTry (.oid n) rb now store = .error .validation ∧
    (renewMembership (.oid n) rb now store).1.success = false ∧
    (renewMembership (.oid n) rb now store).1.data = none ∧
    (renewMembership (.oid n) rb now store).2 = store := by
  have hne : (renewMembership (.oid n) rb now store).1.status ≠ 200 := by
    intro h
    obtain ⟨n2, old2, pt, _, _, hpt2, hv, _⟩ := renewMembership_ok (.oid n) rb now store h
    rcases hpt with h0 | ⟨pt3, h3, hn3⟩
    · rw [h0] at hpt2
      cases hpt2
    · rw [h3] at hpt2
      cases hpt2
      exact hn3 hv
  have hT : renewMembershipTry (.oid n) rb now store = .error .validation := by
    unfold renewMembership renewMembershipTry at hne
    unfold renewMembershipTry
    simp only [hf] at hne ⊢
    cases hra : renewAssign now rb old with
    | none => rfl
    | some doc =>
      simp only [hra] at hne ⊢
      split_ifs at hne ⊢ with hval
      · rfl
      · exact absurd rfl hne
  have hR : renewMembership (.oid n) rb now store =
      (handleError (.ofError .validation), store) := by
    unfold renewMembership
    rw [hT]
  rw [hR]
  exact ⟨hT, rfl, rfl, rfl⟩

/-- Witness of C28: the renewal of `carol` with the package `gold`. -/
theorem renewMembership_rejects_unknown_package_witness :
    renewMembershipTry (.oid 3) renewGold mar1 [carol] = .error .validation ∧
    (renewMembership (.oid 3) renewGold mar1 [carol]).1.success = false ∧
    (renewMembership (.oid 3) renewGold mar1 [carol]).1.data = none ∧
    (renewMembership (.oid 3) renewGold mar1 [carol]).2 = [carol] :=
  renewMembership_rejects_unknown_package 3 renewGold mar1 [carol] carol (by decide)
    (Or.inr ⟨"gold", rfl, by decide⟩)

/-- Counterexample to C28 as stated: for the package `gold` the lookup gives
30 days, and the renewal of `carol` does not succeed and stores nothing; the
same holds for a renewal without a package. -/
theorem renewMembership_gold_fails :
    durationDays renewPackageDurations (some "gold") = some 30 ∧
    (renewMembership (.oid 3) renewGold mar1 [carol]).1.success = false ∧
    (renewMembership (.oid 3) renewGold mar1 [carol]).1.status ≠ 200 ∧
    (renewMembership (.oid 3) renewGold mar1 [carol]).2 = [carol] ∧
    (renewMembership (.oid 3) { renewBasic with packageType := none } mar1 [carol]).1.success =
      false ∧
    (renewMembership (.oid 3) { renewBasic with packageType := none } mar1 [carol]).2 =
      [carol] := by
  decide

theorem durationDaysSpec_ge (packageType : Option String) : 7 ≤ durationDaysSpec packageType := by
  unfold durationDaysSpec
  split <;> decide

/-- C29: the document created by a successful `addMember` has an expiry at
least seven days after `now`, the `pre('save')` middleware leaves it as it is,
and its status is the one of the body, or `active` when the body has none. -/
theorem addMember_status (ve : List String) (actor freshId : Nat) (b : Body)
    (now : Timestamp) (store : Store)
    (h : (addMember ve actor freshId b now store).1.status = 201) :
    ∃ new, (addMember ve actor freshId b now store).2 = store ++ [new] ∧
      (addMember ve actor freshId b now store).1.data = some (.member new) ∧
      now + 7 * 86400000 ≤ new.expiryDate ∧
      preSave now new = new ∧
      (∀ st, b.membershipStatus = some st → new.membershipStatus = st) ∧
      (b.membershipStatus = none → new.membershipStatus = "active") := by
  obtain ⟨doc, _, _, hn, _, he⟩ := addMember_ok ve actor freshId b now store h
  obtain ⟨_, hexp, _, _, hst, _⟩ := castNew_fields _ _ _ _ _ _ hn
  have hge : now + 7 * 86400000 ≤ doc.expiryDate := by
    rw [hexp]
    have : (7 : Int) ≤ (durationDaysSpec b.packageType : Int) := by
      exact_mod_cast durationDaysSpec_ge b.packageType
    have h2 : (7 : Int) * 86400000 ≤ (durationDaysSpec b.packageType : Int) * 86400000 :=
      Int.mul_le_mul_of_nonneg_right this (by decide)
    linarith
  have hpre : preSave now doc = doc := by
    have : ¬ (doc.expiryDate < now) := by
      intro hlt
      have : doc.expiryDate < now + 7 * 86400000 := by linarith
      exact absurd hge (not_le.mpr this)
    simp [preSave, this]
  refine ⟨doc, by rw [he], by rw [he], hge, hpre, ?_, ?_⟩
  · intro st hb
    rw [hst, hb]
    rfl
  · intro hb
    rw [hst, hb]
    rfl

/-- Witness of C29: the creation from `daveBody`, which gives no status. -/
theorem addMember_status_witness :
    (addMember [] 7 4 daveBody jan1 [alice]).2.map (fun m => m.membershipStatus) =
      ["active", "active"] ∧
    ∃ new, (addMember [] 7 4 daveBody jan1 [alice]).2 = [alice] ++ [new] ∧
      (addMember [] 7 4 daveBody jan1 [alice]).1.data = some (.member new) ∧
      jan1 + 7 * 86400000 ≤ new.expiryDate ∧
      preSave jan1 new = new ∧
      (∀ st, daveBody.membershipStatus = some st → new.membershipStatus = st) ∧
      (daveBody.membershipStatus = none → new.membershipStatus = "active") :=
  ⟨by decide, addMember_status [] 7 4 daveBody jan1 [alice] (by decide)⟩

/-- C30, as amended: a successful `renewMembership` keeps every other
document, and in the target document it keeps `_id`, `fullName`, `email`,
`phone`, `address`, `joinDate`, `emergencyContact`, `medicalInfo`, `createdBy`
and `createdAt`; besides `packageType`, `expiryDate`, `membershipStatus` and
`paymentHistory` it sets `updatedAt` to `now`. -/
theorem renewMembership_frame (n : Nat) (rb : RenewBody) (now : Timestamp) (store : Store)
    (h : (renewMembership (.oid n) rb now store).1.status = 200) :
    ∃ l1 old l2 new, store = l1 ++ old :: l2 ∧ (∀ x ∈ l1, x._id ≠ n) ∧ old._id = n ∧
      (renewMembership (.oid n) rb now store).2 = l1 ++ new :: l2 ∧
      new._id = old._id ∧ new.fullName = old.fullName ∧ new.email = old.email ∧
      new.phone = old.phone ∧ new.address = old.address ∧ new.joinDate = old.joinDate ∧
      new.emergencyContact = old.emergencyContact ∧ new.medicalInfo = old.medicalInfo ∧
      new.createdBy = old.createdBy ∧ new.createdAt = old.createdAt ∧
      new.updatedAt = now := by
  obtain ⟨l1, old, l2, pt, hl, h1, h2, _, _, he⟩ := renewMembership_split n rb now store h
  exact ⟨l1, old, l2, renewSpec now rb pt old, hl, h1, h2, by rw [he],
    rfl, rfl, rfl, rfl, rfl, rfl, rfl, rfl, rfl, rfl, rfl⟩

/-- Witness of C30: the renewal of `carol` in a collection of three. -/
theorem renewMembership_frame_witness :
    (renewMembership (.oid 3) renewBasic mar1 [alice, carol, bob]).1.status = 200 ∧
    ∃ l1 old l2 new, [alice, carol, bob] = l1 ++ old :: l2 ∧ (∀ x ∈ l1, x._id ≠ 3) ∧
      old._id = 3 ∧
      (renewMembership (.oid 3) renewBasic mar1 [alice, carol, bob]).2 = l1 ++ new :: l2 ∧
      new._id = old._id ∧ new.fullName = old.fullName ∧ new.email = old.email ∧
      new.phone = old.phone ∧ new.address = old.address ∧ new.joinDate = old.joinDate ∧
      new.emergencyContact = old.emergencyContact ∧ new.medicalInfo = old.medicalInfo ∧
      new.createdBy = old.createdBy ∧ new.createdAt = old.createdAt ∧
      new.updatedAt = mar1 :=
  ⟨by decide, renewMembership_frame 3 renewBasic mar1 [alice, carol, bob] (by decide)⟩

/-- Counterexample to C30 as stated: the renewal of `carol` changes her
`updatedAt`, which is none of the four fields. -/
theorem renewMembership_touches_updatedAt :
    (renewMembership (.oid 3) renewBasic mar1 [carol]).1.status = 200 ∧
    (renewMembership (.oid 3) renewBasic mar1 [carol]).2.map (fun m => m.updatedAt) = [mar1] ∧
    carol.updatedAt ≠ mar1 := by
  decide

end GymManagement
